import Mathlib

/-!
Verification development for the taxi-dispatch server
(`taxi-server/src/server.ts`).

The numeric values manipulated by the dispatcher code (coordinates,
distances, durations, revenues, demand predictions) are JavaScript
numbers; inside the dispatcher logic they are only added, multiplied,
divided, compared, floored/ceiled and rounded, so we model them as `ℚ`,
which keeps every definition executable.  The single place where
transcendental functions appear (the haversine fallback of the OSRM
adapter) is modelled separately over `ℝ`.

JavaScript `Infinity` is modelled by the explicit marker type `JsNum`:
the dispatchers test `route.distance === Infinity`, so the distance
channel of a travel estimate is a `JsNum α` while every other channel is
a plain number.

Hours and minutes are modelled as `Int` (JavaScript integers), the
formatted time strings produced by `formatTime` as the `DisplayTime`
record that carries exactly the three pieces of information the string
holds and that `calculateTotalDrivingTime` parses back out of it
(displayed hour, minutes, AM/PM flag).
-/

namespace Taxi

/-- JavaScript `Math.round`: round half away from zero for positive
halves, i.e. `Math.round x = ⌊x + 0.5⌋`. -/
def jsRound (q : ℚ) : Int := Int.floor (q + 1/2)

/-- The 2-decimal-place coordinate matching used throughout the source:
`Math.round(x * 100)`. -/
def round2 (x : ℚ) : Int := jsRound (x * 100)

/-- JavaScript `v || d` on an optional numeric map lookup: `undefined`
and the falsy number `0` both yield the default. -/
def jsOr (v : Option ℚ) (d : ℚ) : ℚ :=
  match v with
  | none => d
  | some x => if x = 0 then d else x

/-- The ascending integer interval `[a, b]` (empty when `b < a`);
models an ascending JavaScript `for` loop over hours. -/
def intsAsc (a b : Int) : List Int :=
  (List.range (b + 1 - a).toNat).map (fun n : ℕ => a + (n : Int))

/-- The descending integer interval `a, a-1, …, b` (empty when `a < b`);
models a descending JavaScript `for` loop over hours. -/
def intsDesc (a b : Int) : List Int :=
  (List.range (a + 1 - b).toNat).map (fun n : ℕ => a - (n : Int))

/-- Deduplication keeping the first occurrence against an accumulator
of already-seen elements. -/
def dedupSeen [DecidableEq α] (seen : List α) : List α → List α
  | [] => []
  | a :: t => if a ∈ seen then dedupSeen seen t else a :: dedupSeen (seen ++ [a]) t

/-- Deduplication keeping the first occurrence, the behaviour of
`[...new Set(xs)]` in JavaScript. -/
def dedupFirst [DecidableEq α] (l : List α) : List α := dedupSeen [] l

/-- `xs[Math.floor(r * xs.length)]`, the uniformly random pick of the
source with the random draw `r ∈ [0,1)` made explicit; `d` is a default
for out-of-range indices (never used for `0 ≤ r < 1` and nonempty `xs`). -/
def pickR (r : ℚ) (xs : List α) (d : α) : α :=
  xs.getD (Int.floor (r * xs.length)).toNat d

/-- JavaScript `Infinity`-aware number: the dispatchers compare travel
distances against `Infinity`, every other channel is a plain number. -/
inductive JsNum (α : Type) where
  | fin (x : α)
  | inf
deriving DecidableEq

/-- The `x === Infinity` test. -/
def JsNum.isInf : JsNum α → Bool
  | .fin _ => false
  | .inf => true

/-- Extract the finite value (junk `0` on `Infinity`; the source only
reads `distance`/`duration` after the `=== Infinity` guard). -/
def JsNum.toVal [Zero α] : JsNum α → α
  | .fin x => x
  | .inf => 0

/-! ## Time formatting and the driving-time computation -/

/-- The information content of the string produced by `formatTime`:
`"${formattedHour}:${minutes} ${period}"`.  `h` is the displayed
12-hour figure, `m` the minutes, `pm` whether the period reads `PM`. -/
structure DisplayTime where
  h : Int
  m : Int
  pm : Bool
deriving DecidableEq

/-- `formatTime(hour, minutes)` from the source:
`period = hour >= 12 ? 'PM' : 'AM'`, `formattedHour = hour % 12 || 12`
(JavaScript `%` is truncated remainder, and `0` is falsy). -/
def formatTime (hour minutes : Int) : DisplayTime :=
  { h := if Int.tmod hour 12 = 0 then 12 else Int.tmod hour 12
    m := minutes
    pm := decide (12 ≤ hour) }

inductive LocType where
  | pickup
  | dropoff
deriving DecidableEq

/-- A route event.  `time` is the formatted display timestamp stored by
the source; `absTime` is a ghost field recording the `(hour, minutes)`
cursor pair from which `time` was formatted — it is carried for
specification purposes only and never read by any embedded function. -/
structure Location where
  lat : ℚ
  lng : ℚ
  type : LocType
  time : DisplayTime
  tripId : Int
  revenue : ℚ
  absTime : Int × Int
deriving DecidableEq

/-- 24-hour conversion performed by `calculateTotalDrivingTime` on a
parsed display timestamp: `isPM = time.includes('PM') && hour !== 12`,
`hour24 = isPM ? hour + 12 : (hour === 12 && !isPM ? 0 : hour)`. -/
def parsedHour24 (t : DisplayTime) : Int :=
  let isPM : Bool := t.pm && !(t.h = 12)
  if isPM then t.h + 12 else if t.h = 12 && !isPM then 0 else t.h

/-- `calculateTotalDrivingTime` from the source: parse the first and
last events' display timestamps, take the difference in minutes, add 24
hours when negative, convert to hours and round to one decimal. -/
def calculateTotalDrivingTime (locations : List Location) : ℚ :=
  match locations with
  | [] => 0
  | [_] => 0
  | first :: rest =>
    let last := (first :: rest).getLast (List.cons_ne_nil _ _)
    let firstTotalMinutes : Int := parsedHour24 first.time * 60 + first.time.m
    let lastTotalMinutes : Int := parsedHour24 last.time * 60 + last.time.m
    let diffMinutes := lastTotalMinutes - firstTotalMinutes
    let totalMinutes := if diffMinutes < 0 then diffMinutes + 24 * 60 else diffMinutes
    (jsRound ((totalMinutes : ℚ) / 6) : ℚ) / 10

/-- `calculateRevenue(distanceM) = 4.5 + (distanceM / 1000) * 0.70`. -/
def calculateRevenue (distanceM : ℚ) : ℚ :=
  4.5 + distanceM / 1000 * 0.70

/-! ## The demand dataset -/

/-- The `drop_grouped_points` column: either the sentinel array `[0]`
("no suggested drop-off points") or an array of `[lat, lng]` pairs.
All three usability checks in the source (`getPossibleActions`, the
inline check in the RL `findRoute`, and the twin checks in
`getBestDropOffLocation`) agree on this domain: the sentinel and the
empty array are unusable, a nonempty array of pairs is usable. -/
inductive DropPoints where
  | sentinel
  | pts (l : List (ℚ × ℚ))
deriving DecidableEq

/-- The common value of the source's usability tests on `DropPoints`. -/
def DropPoints.usable : DropPoints → Bool
  | .sentinel => false
  | .pts l => !l.isEmpty

/-- The point list (empty for the sentinel). -/
def DropPoints.list : DropPoints → List (ℚ × ℚ)
  | .sentinel => []
  | .pts l => l

/-- One row of the processed dataset, restricted to the columns the
dispatchers read. -/
structure DataRow where
  hour : Int
  LATITUDE : ℚ
  LONGITUDE : ℚ
  predictions : ℚ
  dropGroupedPoints : DropPoints
deriving DecidableEq

/-- The row-coordinate match used everywhere in the source:
`Math.round(row.LATITUDE * 100) === Math.round(lat * 100)` and the same
for longitude. -/
def matchCoords (row : DataRow) (lat lng : ℚ) : Bool :=
  round2 row.LATITUDE = round2 lat ∧ round2 row.LONGITUDE = round2 lng

/-- A travel estimate as consumed by the dispatchers: the `geometry`
channel is never read by any route-assembly decision, so it is not
modelled here. -/
structure TravelEst where
  distance : JsNum ℚ
  duration : ℚ
deriving DecidableEq

/-- The travel estimator as seen from the dispatchers: a response for
every ordered pair of coordinates (`routeDistTime(lon1, lat1, lon2,
lat2)`; the adapter never throws and never returns a nullish value). -/
def Osrm : Type := ℚ → ℚ → ℚ → ℚ → TravelEst

/-! ## The OSRM adapter (`OSRMConnection.routeDistTime`)

The adapter itself is modelled over `ℝ`: the haversine fallback uses
`sin`, `cos`, `atan2` and `sqrt`.  The external routing oracle is an
input to the embedded function — one `OracleOutcome` per call — since
the HTTP request is the only effect inside `routeDistTime`. -/

/-- IEEE `Math.atan2(y, x)` for finite arguments. -/
noncomputable def atan2 (y x : ℝ) : ℝ :=
  if 0 < x then Real.arctan (y / x)
  else if x < 0 ∧ 0 ≤ y then Real.arctan (y / x) + Real.pi
  else if x < 0 ∧ y < 0 then Real.arctan (y / x) - Real.pi
  else if x = 0 ∧ 0 < y then Real.pi / 2
  else if x = 0 ∧ y < 0 then -(Real.pi / 2)
  else 0

/-- `calculateDistance(lat1, lon1, lat2, lon2)`: the haversine distance
in kilometres with Earth radius 6371 km. -/
noncomputable def calculateDistance (lat1 lon1 lat2 lon2 : ℝ) : ℝ :=
  let R : ℝ := 6371
  let dLat := (lat2 - lat1) * Real.pi / 180
  let dLon := (lon2 - lon1) * Real.pi / 180
  let a :=
    Real.sin (dLat / 2) * Real.sin (dLat / 2) +
      Real.cos (lat1 * Real.pi / 180) * Real.cos (lat2 * Real.pi / 180) *
        Real.sin (dLon / 2) * Real.sin (dLon / 2)
  let c := 2 * atan2 (Real.sqrt a) (Real.sqrt (1 - a))
  R * c

/-- One route of a parsed OSRM response.  The numeric channels are
JSON-parsed numbers, hence finite reals (JSON cannot encode
`Infinity`); `geometry` is an opaque polyline object. -/
structure OsrmRoute where
  distance : ℝ
  duration : ℝ
  geometry : Option Unit

/-- The outcome of one oracle call, as observed inside `routeDistTime`:
the request may throw (network error — caught), or deliver a parsed
body whose `routes` field may be missing or an arbitrary (possibly
empty) list. -/
inductive OracleOutcome where
  | error
  | response (routes : Option (List OsrmRoute))

/-- Every outcome other than a response with a nonempty `routes` list
takes the fallback path of `routeDistTime`. -/
def OracleOutcome.fails : OracleOutcome → Bool
  | .error => true
  | .response none => true
  | .response (some []) => true
  | .response (some (_ :: _)) => false

/-- The value returned by `routeDistTime`: distance in metres (tagged
with the `Infinity` marker type, because callers test
`distance === Infinity`), duration in seconds, optional geometry. -/
structure RouteResult where
  distance : JsNum ℝ
  duration : ℝ
  geometry : Option Unit

/-- `OSRMConnection.routeDistTime(lon1, lat1, lon2, lat2)`: use the
first route of a successful response; on any failure fall back to the
haversine estimate (`distance = km * 1000`, `duration = km * 120`,
`geometry = null`).  The body never escapes: exceptions from the HTTP
call are caught and every path returns a value. -/
noncomputable def routeDistTime (outcome : OracleOutcome)
    (lon1 lat1 lon2 lat2 : ℝ) : RouteResult :=
  match outcome with
  | .response (some (route :: _)) =>
    { distance := .fin route.distance
      duration := route.duration
      geometry := route.geometry }
  | _ =>
    let distKm := calculateDistance lat1 lon1 lat2 lon2
    { distance := .fin (distKm * 1000)
      duration := distKm * 120
      geometry := none }

/-! ## The shared time ledger -/

/-- Fuel-indexed body of the minute-overflow loop; a fuel of
`m.toNat` always suffices, since every iteration removes 60 minutes
(`carryGo_minutes_lt` below). -/
def carryGo (breakStartHour breakEndHour : Int) : ℕ → Int → Int → Int × Int
  | 0, t, m => (t, m)
  | fuel + 1, t, m =>
    if 60 ≤ m then
      if breakStartHour ≤ t + 1 ∧ t + 1 < breakEndHour then (breakEndHour, 0)
      else carryGo breakStartHour breakEndHour fuel (t + 1) (m - 60)
    else (t, m)

/-- The minute-overflow loop shared by both `findRoute` bodies:
`while (currentMinutes >= 60) { currentTime++; currentMinutes -= 60;
if (breakStart <= currentTime < breakEnd) { currentTime = breakEnd;
currentMinutes = 0; } }` (after the snap the loop guard fails, so the
snap returns directly). -/
def carry (breakStartHour breakEndHour t m : Int) : Int × Int :=
  carryGo breakStartHour breakEndHour m.toNat t m

/-- A finished route: the fields of the `Route` value returned by both
`findRoute` implementations (`tripCount` is stamped on later by the
HTTP handler and is not part of route assembly). -/
structure Route where
  locations : List Location
  totalRevenue : ℚ
  totalDrivingTime : ℚ
  breakTime : DisplayTime × DisplayTime
deriving DecidableEq

/-- The synthetic starting event both dispatchers seed the route with:
a pickup at the start position, `tripId` 0, zero revenue. -/
def seedLocation (startLat startLon : ℚ) (startHour : Int) : Location :=
  ⟨startLat, startLon, .pickup, formatTime startHour 0, 0, 0, (startHour, 0)⟩

/-! ## The Q-learning dispatcher's route assembly

`ReinforcementLearningAlgorithm.findRoute` is embedded with oracle
inputs for its effects: the travel estimator used by the drop-off
candidate search is a function of the queried coordinates, and each
loop iteration `i` is given an `RLStep` holding the value returned by
`this.getRecommendation(dropLat, dropLon, currentTime)`
(`getRecommendation` draws `Math.random()` and reads the concurrently
trained Q-table) together with the response of the separate
`routeDistTime` HTTP request for the pickup leg (each request is a
fresh oracle sample, so it is not forced to agree with earlier calls
at the same coordinates).  `fuel` bounds the iterations of the
unbounded `while`. -/

/-- The oracle inputs consumed by one RL loop iteration: the
recommendation `(nextLat, nextLon)` and the travel estimate of the
pickup leg. -/
structure RLStep where
  recommendation : ℚ × ℚ
  pickupEst : TravelEst
deriving DecidableEq

/-- Loop state of the RL `findRoute`.  `stoppedUnreachable` is a ghost
flag recording whether the loop terminated through the
`pickupRoute.distance === Infinity` hard-stop branch; no embedded
function reads it. -/
structure RLState where
  locations : List Location
  currentLat : ℚ
  currentLon : ℚ
  currentTime : Int
  currentMinutes : Int
  tripId : Int
  totalRevenue : ℚ
  stoppedUnreachable : Bool
deriving DecidableEq

/-- The drop-off chosen by the inline best-drop search of the RL
`findRoute` (server.ts lines 506–571). -/
structure RLDrop where
  lat : ℚ
  lon : ℚ
  distance : ℚ
  duration : ℚ
deriving DecidableEq

/-- One step of the inline best-drop fold of the RL `findRoute`
(lines 530–561): skip an unreachable point, otherwise score it by
`revenue * (1 + max(0, demandScore))` and keep it when the score
strictly exceeds the best so far (initial best score `-Infinity`,
modelled by the `Option`). -/
def rlDropFoldStep (data : List DataRow) (osrm : Osrm)
    (currentLat currentLon : ℚ) (currentTime : Int)
    (best : Option (ℚ × RLDrop)) (point : ℚ × ℚ) : Option (ℚ × RLDrop) :=
  let route := osrm currentLon currentLat point.2 point.1
  if route.distance.isInf then best
  else
    let revenue := calculateRevenue route.distance.toVal
    let locationData := data.filter
      (fun rw => decide (rw.hour = currentTime) && matchCoords rw point.1 point.2)
    let demandScore : ℚ :=
      match locationData with
      | [] => 0
      | rw :: _ => if rw.predictions < 0 then -rw.predictions else 0
    let score := revenue * (1 + max 0 demandScore)
    match best with
    | none =>
      some (score, (⟨point.1, point.2, route.distance.toVal, route.duration⟩ : RLDrop))
    | some (bestScore, bestDrop) =>
      if score > bestScore then
        some (score, ⟨point.1, point.2, route.distance.toVal, route.duration⟩)
      else some (bestScore, bestDrop)

/-- The inline best-drop search: if the dataset row matching the
current hour and (2-decimal-rounded) position has usable suggested
points, fold `rlDropFoldStep` over them. -/
def rlBestDrop (data : List DataRow) (osrm : Osrm)
    (currentLat currentLon : ℚ) (currentTime : Int) : Option RLDrop :=
  let dropOffData := data.filter
    (fun row => decide (row.hour = currentTime) && matchCoords row currentLat currentLon)
  match dropOffData with
  | [] => none
  | row :: _ =>
    if row.dropGroupedPoints.usable then
      (row.dropGroupedPoints.list.foldl
        (rlDropFoldStep data osrm currentLat currentLon currentTime) none).map (·.2)
    else none

/-- Drop-off half of one RL loop iteration (lines 506–600): select a
drop-off, accumulate its revenue, advance the minute cursor through
`carry`, and append the drop-off event when a real drop-off
(`dropDistance > 0`) occurred.  Returns the updated state together with
the drop-off coordinates, which the pickup half uses as the query
origin (the source never writes them into `currentLat`/`currentLon`). -/
def rlDropPhase (data : List DataRow) (osrm : Osrm)
    (breakStartHour breakEndHour : Int) (s : RLState) : RLState × ℚ × ℚ :=
  let bd := rlBestDrop data osrm s.currentLat s.currentLon s.currentTime
  let dropLat := match bd with | none => s.currentLat | some d => d.lat
  let dropLon := match bd with | none => s.currentLon | some d => d.lon
  let dropDistance := match bd with | none => 0 | some d => d.distance
  let dropDuration := match bd with | none => 0 | some d => d.duration
  let dropRevenue := if dropDistance > 0 then calculateRevenue dropDistance else 0
  let tm := carry breakStartHour breakEndHour s.currentTime
    (s.currentMinutes + Int.ceil (dropDuration / 60))
  let locations :=
    if dropDistance > 0 then
      s.locations ++ [⟨dropLat, dropLon, .dropoff, formatTime tm.1 tm.2, s.tripId, dropRevenue, tm⟩]
    else s.locations
  ({ s with
      locations := locations
      currentTime := tm.1
      currentMinutes := tm.2
      totalRevenue := s.totalRevenue + dropRevenue }, dropLat, dropLon)

/-- Pickup half of one RL loop iteration (lines 602–644): stop at the
end hour; otherwise take the travel estimate of the pickup leg
(`routeDistTime(dropLon, dropLat, nextLon, nextLat)`, the iteration's
oracle input) and — the hard-stop policy — terminate the route when it
is unreachable; else advance the cursor and append the pickup event
with the next trip id.  The `Bool` is the "continue looping" signal. -/
def rlPickupPhase (breakStartHour breakEndHour endHour : Int)
    (step : RLStep) (sd : RLState × ℚ × ℚ) : RLState × Bool :=
  let s1 := sd.1
  if endHour ≤ s1.currentTime then (s1, false)
  else
    let pickupRoute := step.pickupEst
    if pickupRoute.distance.isInf then ({ s1 with stoppedUnreachable := true }, false)
    else
      let tm := carry breakStartHour breakEndHour s1.currentTime
        (s1.currentMinutes + Int.ceil (pickupRoute.duration / 60))
      ({ s1 with
          locations := s1.locations ++
            [⟨step.recommendation.1, step.recommendation.2, .pickup, formatTime tm.1 tm.2, s1.tripId + 1, 0, tm⟩]
          currentTime := tm.1
          currentMinutes := tm.2
          currentLat := step.recommendation.1
          currentLon := step.recommendation.2
          tripId := s1.tripId + 1 }, true)

/-- The RL `while (currentTime < endHour)` loop: the break-window skip
at the top of the body, then the drop-off and pickup halves.  `i`
counts the iterations that consult the oracles. -/
def rlGo (data : List DataRow) (osrm : Osrm) (env : ℕ → RLStep)
    (breakStartHour breakEndHour endHour : Int) :
    ℕ → ℕ → RLState → RLState
  | 0, _, s => s
  | fuel + 1, i, s =>
    if endHour ≤ s.currentTime then s
    else if breakStartHour ≤ s.currentTime ∧ s.currentTime < breakEndHour then
      rlGo data osrm env breakStartHour breakEndHour endHour fuel i
        { s with currentTime := breakEndHour, currentMinutes := 0 }
    else
      match rlPickupPhase breakStartHour breakEndHour endHour (env i)
          (rlDropPhase data osrm breakStartHour breakEndHour s) with
      | (s1, false) => s1
      | (s1, true) => rlGo data osrm env breakStartHour breakEndHour endHour fuel (i + 1) s1

/-- Initial RL loop state: the seeded route, minute cursor 0, `tripId`
counter 1. -/
def rlInitState (startLat startLon : ℚ) (startHour : Int) : RLState :=
  { locations := [seedLocation startLat startLon startHour]
    currentLat := startLat
    currentLon := startLon
    currentTime := startHour
    currentMinutes := 0
    tripId := 1
    totalRevenue := 0
    stoppedUnreachable := false }

/-- `ReinforcementLearningAlgorithm.findRoute`. -/
def rlFindRoute (data : List DataRow) (osrm : Osrm) (env : ℕ → RLStep) (fuel : ℕ)
    (startLat startLon : ℚ) (startHour endHour breakStartHour breakEndHour : Int) : Route :=
  let s := rlGo data osrm env breakStartHour breakEndHour endHour fuel 0
    (rlInitState startLat startLon startHour)
  { locations := s.locations
    totalRevenue := s.totalRevenue
    totalDrivingTime := calculateTotalDrivingTime s.locations
    breakTime := (formatTime breakStartHour 0, formatTime breakEndHour 0) }

/-! ## The greedy dispatcher

`GreedyAlgorithm` is embedded with the same oracle conventions: the
travel estimator is a function, and each `Math.random()` draw is an
explicit `r ∈ [0,1)` input.  The per-hour claimed-pickup registry
(`chosenPickupsByHour`, a map from hour to a set of exact
`"${lat},${lng}"` keys) is modelled as a list of `(hour, lat, lng)`
triples threaded through the loop state. -/

/-- Result object of `getBestDropOffLocation` (its `geometry` channel
is never read by route assembly and is not modelled). -/
structure DropResult where
  lat : ℚ
  lon : ℚ
  revenue : ℚ
  distance : ℚ
  duration : ℚ
deriving DecidableEq

/-- The "stay at the current location" result. -/
def stayPut (lat lon : ℚ) : DropResult := ⟨lat, lon, 0, 0, 0⟩

/-- `Math.max(...data.map(row => row.hour))` (`none` for empty data,
where the JavaScript value is `-Infinity` and the ascending hour loop
runs zero times). -/
def maxHourOf (data : List DataRow) : Option Int :=
  match data.map (·.hour) with
  | [] => none
  | h :: t => some (t.foldl max h)

/-- `Math.min(...data.map(row => row.hour))` (`none` for empty data,
where the JavaScript value is `Infinity` and the descending hour loop
runs zero times). -/
def minHourOf (data : List DataRow) : Option Int :=
  match data.map (·.hour) with
  | [] => none
  | h :: t => some (t.foldl min h)

/-- The dataset rows matching an hour and a 2-decimal-rounded
position. -/
def recordsAt (data : List DataRow) (hour : Int) (lat lon : ℚ) : List DataRow :=
  data.filter (fun row => decide (row.hour = hour) && matchCoords row lat lon)

/-- First hour in `hours` holding a record at the given position; the
hit's `drop_grouped_points` are taken whether usable or not (the hour
loops of `getBestDropOffLocation` `break` on the first nonempty
filter). -/
def firstHitPts (data : List DataRow) (hours : List Int) (lat lon : ℚ) :
    Option DropPoints :=
  match hours with
  | [] => none
  | h :: rest =>
    match recordsAt data h lat lon with
    | row :: _ => some row.dropGroupedPoints
    | [] => firstHitPts data rest lat lon

/-- The hour-scanning block of `getBestDropOffLocation` (lines
706–736): the first hit scanning forward through
`currentHour+1 … maxHour` at the same rounded position, replaced by the
first backward hit over `currentHour-1 … minHour` when the forward
result is missing or unusable (a fruitless backward scan keeps the
forward result). -/
def hourSearch (data : List DataRow) (currentLat currentLon : ℚ)
    (currentHour : Int) : Option DropPoints :=
  let hoursUp :=
    match maxHourOf data with
    | none => []
    | some mh => intsAsc (currentHour + 1) mh
  let hoursDown :=
    match minHourOf data with
    | none => []
    | some mh => intsDesc (currentHour - 1) mh
  match firstHitPts data hoursUp currentLat currentLon with
  | some p =>
    if p.usable then some p
    else
      match firstHitPts data hoursDown currentLat currentLon with
      | some q => some q
      | none => some p
  | none => firstHitPts data hoursDown currentLat currentLon

/-- The `dropOffLocations` selection of `getBestDropOffLocation`: the
current hour's record if one exists at the rounded position (usable or
not — `hourSearch` is reached only when no record exists at all),
otherwise the outcome of the hour search. -/
def dropLocationsSearch (data : List DataRow) (currentLat currentLon : ℚ)
    (currentHour : Int) : Option DropPoints :=
  match recordsAt data currentHour currentLat currentLon with
  | row :: _ => some row.dropGroupedPoints
  | [] => hourSearch data currentLat currentLon currentHour

/-- The check at lines 720–723 and 739–742: no selection, or an
unusable one (`!dol || !Array.isArray(dol) || dol.length === 0 ||
(dol.length === 1 && dol[0] === 0)`). -/
def unusableSel : Option DropPoints → Bool
  | none => true
  | some p => !p.usable

/-- Stable insertion (after equal keys) by travel distance; together
with `sortByDistance` this models the stable JavaScript
`sort((a, b) => a.distance - b.distance)` on lists whose distances are
all finite (both call sites filter `distance !== Infinity` first). -/
def insertByDistance (x : DataRow × TravelEst) :
    List (DataRow × TravelEst) → List (DataRow × TravelEst)
  | [] => [x]
  | y :: t =>
    if x.2.distance.toVal < y.2.distance.toVal then x :: y :: t
    else y :: insertByDistance x t

/-- Stable sort by ascending travel distance. -/
def sortByDistance (l : List (DataRow × TravelEst)) : List (DataRow × TravelEst) :=
  l.foldl (fun acc x => insertByDistance x acc) []

/-- The positive-predicted-gap fallback of `getBestDropOffLocation`
(lines 739–785): rows of the current hour with `predictions > 0`,
estimated, reachable ones sorted by distance, the 20 nearest kept, one
picked uniformly at random (`r` is the draw); stay put when empty. -/
def gapFallback (data : List DataRow) (osrm : Osrm) (r : ℚ)
    (currentLat currentLon : ℚ) (currentHour : Int) : DropResult :=
  let potentialDropOffs := data.filter
    (fun row => decide (row.hour = currentHour) && decide (row.predictions > 0))
  let withRoutes := potentialDropOffs.map
    (fun row => (row, osrm currentLon currentLat row.LONGITUDE row.LATITUDE))
  let closestDropOffs :=
    (sortByDistance (withRoutes.filter (fun p => !p.2.distance.isInf))).take 20
  match closestDropOffs with
  | [] => stayPut currentLat currentLon
  | c :: rest =>
    let sel := pickR r (c :: rest) c
    ⟨sel.1.LATITUDE, sel.1.LONGITUDE, calculateRevenue sel.2.distance.toVal,
      sel.2.distance.toVal, sel.2.duration⟩

/-- The candidate evaluation of `getBestDropOffLocation`
(lines 787–804): estimate each suggested point, skip unreachable ones,
attach `revenue = calculateRevenue(distance)`. -/
def dropCandidates (osrm : Osrm)
    (currentLat currentLon : ℚ) (pts : List (ℚ × ℚ)) : List DropResult :=
  pts.filterMap (fun point =>
    let route := osrm currentLon currentLat point.2 point.1
    if route.distance.isInf then none
    else some ⟨point.1, point.2, calculateRevenue route.distance.toVal,
      route.distance.toVal, route.duration⟩)

/-- `GreedyAlgorithm.getBestDropOffLocation(currentLat, currentLon,
currentHour)`; `r` is the `Math.random()` draw of the fallback branch.
The final reduce keeps the strict-maximum revenue with the first
candidate as initial value, so ties go to the earlier candidate. -/
def getBestDropOffLocation (data : List DataRow) (osrm : Osrm) (r : ℚ)
    (currentLat currentLon : ℚ) (currentHour : Int) : DropResult :=
  let dol := dropLocationsSearch data currentLat currentLon currentHour
  if unusableSel dol then gapFallback data osrm r currentLat currentLon currentHour
  else
    let cands := dropCandidates osrm currentLat currentLon
      ((dol.getD .sentinel).list)
    match cands with
    | [] => stayPut currentLat currentLon
    | c :: rest =>
      (c :: rest).foldl (fun mx cur => if cur.revenue > mx.revenue then cur else mx) c

/-- `GreedyAlgorithm.getBestPickupLocation(dropLat, dropLon,
currentHour)`: candidates are the current hour's rows minus the rounded
drop-off position and the exact coordinates already claimed this hour;
prefer the 7 nearest reachable rows with positive predicted gap, else
the 7 nearest reachable rows outright; pick uniformly at random (`r`)
and claim the choice.  Returns the chosen coordinates with the updated
registry, or `none` (the match on an empty sorted list in the positive
branch is unreachable: the sorted nonempty list is nonempty). -/
def getBestPickupLocation (data : List DataRow) (osrm : Osrm) (r : ℚ)
    (dropLat dropLon : ℚ) (currentHour : Int)
    (chosen : List (Int × ℚ × ℚ)) : Option ((ℚ × ℚ) × List (Int × ℚ × ℚ)) :=
  let currentHourData := data.filter (fun row => decide (row.hour = currentHour))
  let availableLocations := currentHourData.filter (fun row =>
    !matchCoords row dropLat dropLon &&
      !chosen.contains (currentHour, row.LATITUDE, row.LONGITUDE))
  if availableLocations.isEmpty then none
  else
    let withRoutes := availableLocations.map
      (fun row => (row, osrm dropLon dropLat row.LONGITUDE row.LATITUDE))
    let positiveGapLocations := withRoutes.filter
      (fun p => decide (p.1.predictions > 0) && !p.2.distance.isInf)
    if positiveGapLocations.isEmpty then
      let closestLocations :=
        (sortByDistance (withRoutes.filter (fun p => !p.2.distance.isInf))).take 7
      match closestLocations with
      | [] => none
      | c :: rest =>
        let sel := pickR r (c :: rest) c
        some ((sel.1.LATITUDE, sel.1.LONGITUDE),
          (currentHour, sel.1.LATITUDE, sel.1.LONGITUDE) :: chosen)
    else
      let closestPositiveLocations := (sortByDistance positiveGapLocations).take 7
      match closestPositiveLocations with
      | [] => none
      | c :: rest =>
        let sel := pickR r (c :: rest) c
        some ((sel.1.LATITUDE, sel.1.LONGITUDE),
          (currentHour, sel.1.LATITUDE, sel.1.LONGITUDE) :: chosen)

/-- Loop state of the greedy `findRoute`.  `unreachableSkips` is a
ghost counter of executions of the `pickupRoute.distance === Infinity`
skip-hour branch; no embedded function reads it. -/
structure GreedyState where
  locations : List Location
  currentLat : ℚ
  currentLon : ℚ
  currentTime : Int
  currentMinutes : Int
  tripId : Int
  totalRevenue : ℚ
  chosenPickupsByHour : List (Int × ℚ × ℚ)
  unreachableSkips : ℕ
deriving DecidableEq

/-- Drop-off half of one greedy loop iteration (lines 933–966): when
the best drop-off has positive distance, accumulate its revenue,
advance the cursor, append the event and move to the drop-off
(unlike the RL loop, the greedy loop updates the current position). -/
def greedyDropPhase (data : List DataRow) (osrm : Osrm) (r : ℚ)
    (breakStartHour breakEndHour : Int) (s : GreedyState) : GreedyState :=
  let dropOffResult := getBestDropOffLocation data osrm r s.currentLat s.currentLon s.currentTime
  if dropOffResult.distance > 0 then
    let tm := carry breakStartHour breakEndHour s.currentTime
      (s.currentMinutes + Int.ceil (dropOffResult.duration / 60))
    { s with
        totalRevenue := s.totalRevenue + dropOffResult.revenue
        currentTime := tm.1
        currentMinutes := tm.2
        locations := s.locations ++
          [⟨dropOffResult.lat, dropOffResult.lon, .dropoff, formatTime tm.1 tm.2,
            s.tripId, dropOffResult.revenue, tm⟩]
        currentLat := dropOffResult.lat
        currentLon := dropOffResult.lon }
  else s

/-- The oracle inputs consumed by one greedy loop iteration: the two
`Math.random()` draws (drop-off fallback pick, pickup pick) and the
travel estimate of the pickup leg (`routeDistTime(currentLon,
currentLat, pickupLon, pickupLat)` — a separate HTTP request, so a
fresh oracle sample not forced to agree with the estimates the
selection helpers saw). -/
structure GreedyStep where
  rDrop : ℚ
  rPick : ℚ
  pickupEst : TravelEst
deriving DecidableEq

/-- Pickup half of one greedy loop iteration (lines 968–1019): stop at
the end hour; a `null` pickup or an unreachable travel estimate
advances `currentTime` by one hour and retries (`continue`) — the
registry keeps an entry already claimed by the failed call; otherwise
advance the cursor and append the pickup event with the next trip id.
The `Bool` is the "continue looping" signal. -/
def greedyPickupPhase (data : List DataRow) (osrm : Osrm) (step : GreedyStep)
    (breakStartHour breakEndHour endHour : Int) (s1 : GreedyState) :
    GreedyState × Bool :=
  if endHour ≤ s1.currentTime then (s1, false)
  else
    match getBestPickupLocation data osrm step.rPick s1.currentLat s1.currentLon
        s1.currentTime s1.chosenPickupsByHour with
    | none => ({ s1 with currentTime := s1.currentTime + 1 }, true)
    | some (pickupLoc, chosen1) =>
      let pickupRoute := step.pickupEst
      if pickupRoute.distance.isInf then
        ({ s1 with
            currentTime := s1.currentTime + 1
            chosenPickupsByHour := chosen1
            unreachableSkips := s1.unreachableSkips + 1 }, true)
      else
        let tm := carry breakStartHour breakEndHour s1.currentTime
          (s1.currentMinutes + Int.ceil (pickupRoute.duration / 60))
        ({ s1 with
            locations := s1.locations ++
              [⟨pickupLoc.1, pickupLoc.2, .pickup, formatTime tm.1 tm.2,
                s1.tripId + 1, 0, tm⟩]
            currentTime := tm.1
            currentMinutes := tm.2
            currentLat := pickupLoc.1
            currentLon := pickupLoc.2
            tripId := s1.tripId + 1
            chosenPickupsByHour := chosen1 }, true)

/-- The greedy `while (currentTime < endHour)` loop; `genv i` supplies
the oracle inputs of the `i`-th iteration. -/
def greedyGo (data : List DataRow) (osrm : Osrm) (genv : ℕ → GreedyStep)
    (breakStartHour breakEndHour endHour : Int) :
    ℕ → ℕ → GreedyState → GreedyState
  | 0, _, s => s
  | fuel + 1, i, s =>
    if endHour ≤ s.currentTime then s
    else if breakStartHour ≤ s.currentTime ∧ s.currentTime < breakEndHour then
      greedyGo data osrm genv breakStartHour breakEndHour endHour fuel i
        { s with currentTime := breakEndHour, currentMinutes := 0 }
    else
      match greedyPickupPhase data osrm (genv i) breakStartHour breakEndHour endHour
          (greedyDropPhase data osrm (genv i).rDrop breakStartHour breakEndHour s) with
      | (s1, false) => s1
      | (s1, true) =>
        greedyGo data osrm genv breakStartHour breakEndHour endHour fuel (i + 1) s1

/-- Initial greedy loop state. -/
def greedyInitState (startLat startLon : ℚ) (startHour : Int) : GreedyState :=
  { locations := [seedLocation startLat startLon startHour]
    currentLat := startLat
    currentLon := startLon
    currentTime := startHour
    currentMinutes := 0
    tripId := 1
    totalRevenue := 0
    chosenPickupsByHour := []
    unreachableSkips := 0 }

/-- `GreedyAlgorithm.findRoute`. -/
def greedyFindRoute (data : List DataRow) (osrm : Osrm) (genv : ℕ → GreedyStep) (fuel : ℕ)
    (startLat startLon : ℚ) (startHour endHour breakStartHour breakEndHour : Int) : Route :=
  let s := greedyGo data osrm genv breakStartHour breakEndHour endHour fuel 0
    (greedyInitState startLat startLon startHour)
  { locations := s.locations
    totalRevenue := s.totalRevenue
    totalDrivingTime := calculateTotalDrivingTime s.locations
    breakTime := (formatTime breakStartHour 0, formatTime breakEndHour 0) }

/-! ## Q-learning internals

States are `"gridX,gridY,hour"` strings in the source and actions
`"gridX,gridY"` strings; both key formats are injective renderings of
integer tuples, so they are modelled as tuples.  `locationMapping` and
`qTable` are JavaScript `Map`s, modelled as functions into `Option`
(a missing inner state map behaves exactly like an empty one in every
read, so the Q-table is flattened to a function of state and action). -/

/-- `getGridCell(latitude, longitude)`: clamp into the Singapore
bounding box and floor onto the 20×20 grid. -/
def getGridCell (latitude longitude : ℚ) : Int × Int :=
  let latMin : ℚ := 1.2
  let latMax : ℚ := 1.5
  let lonMin : ℚ := 103.6
  let lonMax : ℚ := 104.1
  let gridSize : ℚ := 20
  (min (20 - 1) (max 0 (Int.floor ((latitude - latMin) / (latMax - latMin) * gridSize))),
    min (20 - 1) (max 0 (Int.floor ((longitude - lonMin) / (lonMax - lonMin) * gridSize))))

/-- `getState(latitude, longitude, hour)`. -/
def getState (latitude longitude : ℚ) (hour : Int) : Int × Int × Int :=
  ((getGridCell latitude longitude).1, (getGridCell latitude longitude).2, hour)

/-- The `locationMapping` cache: action cell to concrete coordinates. -/
def Mapping : Type := Int × Int → Option (ℚ × ℚ)

/-- `locationMapping.set(key, value)`. -/
def Mapping.set (m : Mapping) (k : Int × Int) (v : ℚ × ℚ) : Mapping :=
  fun k2 => if k2 = k then some v else m k2

/-- The Q-table, flattened: `qTable.get(s)?.get(a)`. -/
def QTable : Type := Int × Int × Int → Int × Int → Option ℚ

/-- Writing one Q-value (creating the inner state map if needed). -/
def QTable.set (q : QTable) (s : Int × Int × Int) (a : Int × Int) (v : ℚ) : QTable :=
  fun s2 a2 => if s2 = s ∧ a2 = a then some v else q s2 a2

/-- `getPossibleActions(state)`: rows of the state's hour with usable
suggested drop-off points — or all rows of that hour when none have
any — mapped to their grid cells, deduplicated in first-encounter
order (`[...new Set(actions)]`), recording each row's coordinates in
`locationMapping` (later rows overwrite the same cell).  Returns the
action list together with the updated mapping. -/
def getPossibleActions (data : List DataRow) (mapping : Mapping)
    (state : Int × Int × Int) : List (Int × Int) × Mapping :=
  let hour := state.2.2
  let hourData := data.filter (fun row => decide (row.hour = hour))
  let validPickupLocations := hourData.filter (fun row => row.dropGroupedPoints.usable)
  let source := if validPickupLocations.isEmpty then hourData else validPickupLocations
  let fold := source.foldl
    (fun (acc : List (Int × Int) × Mapping) row =>
      let cell := getGridCell row.LATITUDE row.LONGITUDE
      (acc.1 ++ [cell], acc.2.set cell (row.LATITUDE, row.LONGITUDE)))
    ([], mapping)
  (dedupFirst fold.1, fold.2)

/-- `calculateReward(state, action, distanceToPickup)`: `-10` when
either the state cell or the action cell is missing from
`locationMapping`; otherwise the demand-supply factor of the first
dataset row matching the state's hour and the action's rounded
coordinates (neutral `1.0` when none matches) minus the moving cost
`distance/1000 * 0.3`. -/
def calculateReward (data : List DataRow) (mapping : Mapping)
    (state : Int × Int × Int) (action : Int × Int) (distanceToPickup : ℚ) : ℚ :=
  match mapping (state.1, state.2.1), mapping action with
  | some _, some nextCoords =>
    let movingCost := distanceToPickup / 1000 * 0.3
    let nextLocationData := data.filter (fun row =>
      decide (row.hour = state.2.2) && matchCoords row nextCoords.1 nextCoords.2)
    let demandSupplyFactor : ℚ :=
      match nextLocationData with
      | [] => 1.0
      | row :: _ =>
        if row.predictions > 0 then 2.0 + min |row.predictions| 3.0
        else max 0.5 (1.0 - min row.predictions 0.5)
    demandSupplyFactor - movingCost
  | _, _ => -10

/-- The Q-value write of one training step (server.ts lines 347–365):
`maxNextQ` is 0 when the next state has no possible actions and
otherwise the maximum of `nextStateMap.get(a) || 0.1` over them;
`currentQ = stateMap.get(action) || 0.1`; then
`Q(s,a) := currentQ + 0.1 * (reward + 0.9 * maxNextQ - currentQ)`.
(`||` is the JavaScript falsy default: it replaces both a missing entry
and a stored `0`.) -/
def qLearningUpdate (q : QTable) (currentState : Int × Int × Int)
    (action : Int × Int) (reward : ℚ) (nextState : Int × Int × Int)
    (nextPossibleActions : List (Int × Int)) : QTable :=
  let maxNextQ : ℚ :=
    match nextPossibleActions.map (fun a => jsOr (q nextState a) 0.1) with
    | [] => 0
    | v :: vs => vs.foldl max v
  let currentQ := jsOr (q currentState action) 0.1
  let learningRate : ℚ := 0.1
  let discountFactor : ℚ := 0.9
  q.set currentState action
    (currentQ + learningRate * (reward + discountFactor * maxNextQ - currentQ))

/-- The `Math.random()` draws of one training step: the ε-greedy coin
(`Math.random() < 0.5`) and the index draw of the explore branch. -/
structure TrainStepEnv where
  explore : Bool
  randIdx : ℚ

/-- The `Math.random()` draws of one training episode: the start hour
(`Math.floor(Math.random() * 24)`), the draw selecting the starting
row, and the per-step draws. -/
structure TrainEpisodeEnv where
  startHour : Int
  startIdx : ℚ
  step : ℕ → TrainStepEnv

/-- Mutable state threaded through training: the Q-table and
`locationMapping` persist across episodes; position and hour are
episode-local. -/
structure TrainState where
  qTable : QTable
  mapping : Mapping
  currentLat : ℚ
  currentLon : ℚ
  currentHour : Int

/-- One training step (the body of `for (step = 0; step < 10; ...)`,
lines 304–371): `none` models `break` (no possible actions); the
unreachable-pickup `continue` keeps position and hour (but keeps the
mapping entries added by `getPossibleActions`).  The action is chosen
ε-greedily: explore picks a uniformly random action, exploit reduces
`Object.entries(qValues)` keeping the later element on ties. -/
def trainStep (data : List DataRow) (osrm : Osrm) (env : TrainStepEnv)
    (ts : TrainState) : Option TrainState :=
  let currentState := getState ts.currentLat ts.currentLon ts.currentHour
  let pa := getPossibleActions data ts.mapping currentState
  let mapping1 := pa.2
  match pa.1 with
  | [] => none
  | a0 :: rest =>
    let action :=
      if env.explore then pickR env.randIdx (a0 :: rest) a0
      else
        let qValues := (a0 :: rest).map (fun a => (a, jsOr (ts.qTable currentState a) 0.1))
        (qValues.tail.foldl (fun acc b => if acc.2 > b.2 then acc else b)
          (a0, jsOr (ts.qTable currentState a0) 0.1)).1
    let pickupCoords := (mapping1 action).getD (ts.currentLat, ts.currentLon)
    let routeToPickup := osrm ts.currentLon ts.currentLat pickupCoords.2 pickupCoords.1
    if routeToPickup.distance.isInf then some { ts with mapping := mapping1 }
    else
      let reward := calculateReward data mapping1 currentState action
        routeToPickup.distance.toVal
      let pickupTime : ℚ := (ts.currentHour : ℚ) + routeToPickup.duration / 3600
      let nextHour := Int.tmod (Int.floor pickupTime) 24
      let nextState := getState pickupCoords.1 pickupCoords.2 nextHour
      let npa := getPossibleActions data mapping1 nextState
      some
        { qTable := qLearningUpdate ts.qTable currentState action reward nextState npa.1
          mapping := npa.2
          currentLat := pickupCoords.1
          currentLon := pickupCoords.2
          currentHour := nextHour }

/-- Run up to `remaining` training steps from step index `stepIdx`,
stopping early on `break`. -/
def trainSteps (data : List DataRow) (osrm : Osrm) (senv : ℕ → TrainStepEnv) :
    ℕ → ℕ → TrainState → TrainState
  | _, 0, ts => ts
  | stepIdx, remaining + 1, ts =>
    match trainStep data osrm (senv stepIdx) ts with
    | none => ts
    | some ts1 => trainSteps data osrm senv (stepIdx + 1) remaining ts1

/-- One training episode (lines 291–372): pick a random start hour,
skip the episode when that hour has no rows (`continue`), else start
from a random row of that hour and run 10 steps. -/
def trainEpisode (data : List DataRow) (osrm : Osrm) (eenv : TrainEpisodeEnv)
    (ts : TrainState) : TrainState :=
  let startData := data.filter (fun row => decide (row.hour = eenv.startHour))
  match startData with
  | [] => ts
  | s0 :: srest =>
    let startRow := pickR eenv.startIdx (s0 :: srest) s0
    trainSteps data osrm eenv.step 0 10
      { ts with
          currentLat := startRow.LATITUDE
          currentLon := startRow.LONGITUDE
          currentHour := eenv.startHour }

/-- The episode loop of `train(episodes)`. -/
def trainLoop (data : List DataRow) (osrm : Osrm) (eenv : ℕ → TrainEpisodeEnv) :
    ℕ → ℕ → TrainState → TrainState
  | _, 0, ts => ts
  | epIdx, remaining + 1, ts =>
    trainLoop data osrm eenv (epIdx + 1) remaining
      (trainEpisode data osrm (eenv epIdx) ts)

/-- `train(episodes)` from a fresh dispatcher (empty Q-table and
mapping; the episode-local position fields start as junk and are
written before first use). -/
def train (data : List DataRow) (osrm : Osrm) (eenv : ℕ → TrainEpisodeEnv)
    (episodes : ℕ) : TrainState :=
  trainLoop data osrm eenv 0 episodes
    { qTable := fun _ _ => none
      mapping := fun _ => none
      currentLat := 0
      currentLon := 0
      currentHour := 0 }

/-! ## Specification-side definitions

Definitions in this section follow the wording of the specification or
of individual claims (each doc comment says which); they exist to be
compared against the embedded source functions above. -/

/-- A throwaway event used as the default of positional list reads in
claim statements (never produced by the dispatchers' index ranges). -/
def dummyLoc : Location :=
  ⟨0, 0, .pickup, formatTime 0 0, -1, 0, (0, 0)⟩

/-- Modelled from the spec: the correct 24-hour reading of a display
timestamp — 12 xx AM is hour 0, 12 xx PM is hour 12, any other PM hour
gains 12 — in minutes since midnight. -/
def specMinutesSinceMidnight (t : DisplayTime) : Int :=
  (if t.pm then (if t.h = 12 then 12 else t.h + 12)
    else (if t.h = 12 then 0 else t.h)) * 60 + t.m

/-- Modelled from the spec: total driving time as the claim describes
it — the first-to-last difference of correctly parsed display
timestamps, plus 24 h on wrap, in hours rounded to one decimal. -/
def specDrivingTime (locations : List Location) : ℚ :=
  match locations with
  | [] => 0
  | [_] => 0
  | first :: rest =>
    let last := (first :: rest).getLast (List.cons_ne_nil _ _)
    let diff := specMinutesSinceMidnight last.time - specMinutesSinceMidnight first.time
    let total := if diff < 0 then diff + 24 * 60 else diff
    (jsRound ((total : ℚ) / 6) : ℚ) / 10

/-- The trip-pairing property asserted by claim C1: every drop-off has
exactly one earlier pickup with the same `tripId`, and the seed pickup
(`tripId` 0) is the only pickup with no paired drop-off anywhere. -/
def claimTripPairing (locs : List Location) : Prop :=
  (∀ i ∈ List.range locs.length,
    (locs.getD i dummyLoc).type = LocType.dropoff →
      (locs.take i).countP
        (fun l => decide (l.type = LocType.pickup ∧ l.tripId = (locs.getD i dummyLoc).tripId))
        = 1) ∧
  (∀ i ∈ List.range locs.length,
    (locs.getD i dummyLoc).type = LocType.pickup →
      locs.countP
        (fun l => decide (l.type = LocType.dropoff ∧ l.tripId = (locs.getD i dummyLoc).tripId))
        = 0 →
      (locs.getD i dummyLoc).tripId = 0)

instance (locs : List Location) : Decidable (claimTripPairing locs) := by
  unfold claimTripPairing; exact inferInstance

/-- The pairing shape the code actually guarantees (amended C1): every
drop-off carries a positive `tripId`, and the earlier events contain
exactly one pickup with that `tripId` when it is at least 2 and none
when it is 1 (the first trip's pickup is the seed, labelled 0). -/
def dropoffsPaired (locs : List Location) : Prop :=
  ∀ i ∈ List.range locs.length,
    (locs.getD i dummyLoc).type = LocType.dropoff →
      1 ≤ (locs.getD i dummyLoc).tripId ∧
      (locs.take i).countP
        (fun l => decide (l.type = LocType.pickup ∧ l.tripId = (locs.getD i dummyLoc).tripId))
        = if 2 ≤ (locs.getD i dummyLoc).tripId then 1 else 0

instance (locs : List Location) : Decidable (dropoffsPaired locs) := by
  unfold dropoffsPaired; exact inferInstance

/-- The pickup `tripId`s of a route, in event order. -/
def pickupIds (locs : List Location) : List Int :=
  (locs.filter (fun l => decide (l.type = LocType.pickup))).map (·.tripId)

/-- An absolute event timestamp lies inside the break window
`[breakStart:00, breakEnd:00)`. -/
def insideBreak (breakStartHour breakEndHour : Int) (l : Location) : Prop :=
  breakStartHour * 60 ≤ l.absTime.1 * 60 + l.absTime.2 ∧
    l.absTime.1 * 60 + l.absTime.2 < breakEndHour * 60

instance (bs be : Int) (l : Location) : Decidable (insideBreak bs be l) := by
  unfold insideBreak; exact inferInstance

/-- Modelled from the spec (claim C6): the demand-supply factor. -/
def specDemandFactor (gap : ℚ) : ℚ :=
  if gap > 0 then 2.0 + min |gap| 3.0 else max 0.5 (1.0 - min gap 0.5)

/-- Modelled from the spec (claim C6): reward = demand factor of the
record found by hour and 2-decimal-rounded coordinates (neutral `1.0`
when no record matches) minus `distanceKm * 0.3`, except that a failed
`locationMapping` lookup yields exactly `-10`. -/
def specReward (data : List DataRow) (mapping : Mapping)
    (state : Int × Int × Int) (action : Int × Int) (dist : ℚ) : ℚ :=
  if (mapping (state.1, state.2.1)).isNone ∨ (mapping action).isNone then -10
  else
    let nc := (mapping action).getD (0, 0)
    let record := data.find? (fun row =>
      decide (row.hour = state.2.2) && matchCoords row nc.1 nc.2)
    (match record with
      | none => 1.0
      | some row => specDemandFactor row.predictions) - dist / 1000 * 0.3

/-- Modelled from claim C7 (the claim's literal reading): the updated
Q-value with the default `0.1` applied only to never-visited entries. -/
def claimQUpdateValue (q : QTable) (s : Int × Int × Int) (a : Int × Int)
    (reward : ℚ) (ns : Int × Int × Int) (nas : List (Int × Int)) : ℚ :=
  let cur := (q s a).getD 0.1
  let maxQ : ℚ :=
    match nas with
    | [] => 0
    | a0 :: rest => (rest.map (fun a2 => (q ns a2).getD 0.1)).foldr max ((q ns a0).getD 0.1)
  cur + 0.1 * (reward + 0.9 * maxQ - cur)

/-- Modelled from the amended claim C7: the value the code stores — as
`claimQUpdateValue`, but the `0.1` default also replaces a stored value
that is exactly `0` (the JavaScript `|| 0.1` falsy default), in the
current Q-value and in every value entering `maxNextQ`. -/
def specQUpdateValue (q : QTable) (s : Int × Int × Int) (a : Int × Int)
    (reward : ℚ) (ns : Int × Int × Int) (nas : List (Int × Int)) : ℚ :=
  let read : Option ℚ → ℚ := fun v =>
    if v = none ∨ v = some 0 then 0.1 else v.getD 0.1
  let cur := read (q s a)
  let maxQ : ℚ :=
    match nas with
    | [] => 0
    | a0 :: rest => (rest.map (fun a2 => read (q ns a2))).foldr max (read (q ns a0))
  cur + 0.1 * (reward + 0.9 * maxQ - cur)

/-- Modelled from claim C5 (the claim's literal reading): the
`dropOffLocations` selection with the hour search triggered whenever
the current hour's record "lacks usable suggested drop-off points" —
also when a record exists but its points are unusable. -/
def dropLocationsSearchClaim (data : List DataRow) (currentLat currentLon : ℚ)
    (currentHour : Int) : Option DropPoints :=
  let curSel : Option DropPoints :=
    match recordsAt data currentHour currentLat currentLon with
    | row :: _ =>
      if row.dropGroupedPoints.usable then some row.dropGroupedPoints else none
    | [] => none
  match curSel with
  | some p => some p
  | none => hourSearch data currentLat currentLon currentHour

/-- Modelled from claim C5 (the claim's literal reading):
`getBestDropOffLocation` with the claim's search trigger; the
downstream handling (gap fallback, reachable-candidate evaluation,
maximum revenue with ties to the earlier candidate) is as the claim
states it. -/
def bestDropoffClaim (data : List DataRow) (osrm : Osrm) (r : ℚ)
    (currentLat currentLon : ℚ) (currentHour : Int) : DropResult :=
  let dol := dropLocationsSearchClaim data currentLat currentLon currentHour
  if unusableSel dol then gapFallback data osrm r currentLat currentLon currentHour
  else
    let cands := dropCandidates osrm currentLat currentLon ((dol.getD .sentinel).list)
    match cands with
    | [] => stayPut currentLat currentLon
    | c :: rest =>
      (c :: rest).foldl (fun mx cur => if cur.revenue > mx.revenue then cur else mx) c

/-- Modelled from the amended claim C5: `getBestDropOffLocation` with
the search trigger the code implements — the hour search runs only when
no record at all exists at the current hour and rounded position; a
record with unusable points goes straight to the gap fallback. -/
def specBestDropoff (data : List DataRow) (osrm : Osrm) (r : ℚ)
    (currentLat currentLon : ℚ) (currentHour : Int) : DropResult :=
  let evalPts : DropPoints → DropResult := fun p =>
    if p.usable then
      match dropCandidates osrm currentLat currentLon p.list with
      | [] => stayPut currentLat currentLon
      | c :: rest =>
        (c :: rest).foldl (fun mx cur => if cur.revenue > mx.revenue then cur else mx) c
    else gapFallback data osrm r currentLat currentLon currentHour
  match recordsAt data currentHour currentLat currentLon with
  | row :: _ => evalPts row.dropGroupedPoints
  | [] =>
    match hourSearch data currentLat currentLon currentHour with
    | some p => evalPts p
    | none => gapFallback data osrm r currentLat currentLon currentHour

/-- `res` is the first candidate attaining the maximum revenue of a
nonempty candidate list — the "maximum revenue, ties broken by
encounter order" selection of claim C5. -/
def isFirstMaxRevenue (l : List DropResult) (res : DropResult) : Prop :=
  ∃ i, ∃ hi : i < l.length,
    l.get ⟨i, hi⟩ = res ∧
    (∀ x ∈ l, x.revenue ≤ res.revenue) ∧
    (∀ j, (hj : j < l.length) → j < i → (l.get ⟨j, hj⟩).revenue < res.revenue)

/-! ## Concrete inputs used by counterexamples and witnesses -/

/-- One dataset row at hour 8 with a usable suggested drop-off. -/
def c1data : List DataRow := [⟨8, 13/10, 519/5, 0, .pts [(131/100, 10381/100)]⟩]

/-- A drop-off-search estimator reporting 1 km / 60 s everywhere. -/
def c1osrm : Osrm := fun _ _ _ _ => ⟨.fin 1000, 60⟩

/-- Iteration oracle: the first iteration recommends a reachable
pickup, the second iteration's pickup leg is unreachable. -/
def c1env : ℕ → RLStep := fun i =>
  if i = 0 then ⟨(33/25, 5191/50), ⟨.fin 1000, 60⟩⟩ else ⟨(5, 5), ⟨.inf, 0⟩⟩

/-- RL route over `c1data`: seed pickup, one drop-off, one further
pickup, then the hard stop. -/
def c1route : Route := rlFindRoute c1data c1osrm c1env 2 (13/10) (519/5) 8 9 12 13

/-- RL route whose start hour 12 lies inside the default 12–13 break
window (empty dataset, instantly ending shift). -/
def c2route : Route :=
  rlFindRoute [] (fun _ _ _ _ => ⟨.fin 0, 0⟩) (fun _ => ⟨(0, 0), ⟨.fin 0, 0⟩⟩) 1
    (13/10) (519/5) 12 13 12 13

/-- Dataset for the break-snap scenario: one row at hour 11 with a
usable suggested drop-off. -/
def c2scnData : List DataRow := [⟨11, 13/10, 519/5, 0, .pts [(131/100, 10381/100)]⟩]

/-- Break-snap scenario route: start 11:00, a 90-minute drop leg
arriving nominally at 12:30 inside the 12–13 break window. -/
def c2scnRoute : Route :=
  rlFindRoute c2scnData (fun _ _ _ _ => ⟨.fin 1000, 5400⟩)
    (fun _ => ⟨(0, 0), ⟨.fin 0, 0⟩⟩) 1 (13/10) (519/5) 11 12 12 13

/-- Dataset for the C4 evaluation: one row at hour 11 with a usable
suggested drop-off. -/
def c4data : List DataRow := [⟨11, 13/10, 519/5, 0, .pts [(131/100, 10381/100)]⟩]

/-- A produced route whose events read 11:00 AM and 12:30 PM (break
window 14–15 kept out of the way). -/
def c4route : Route :=
  rlFindRoute c4data (fun _ _ _ _ => ⟨.fin 2000, 5400⟩)
    (fun _ => ⟨(0, 0), ⟨.fin 0, 0⟩⟩) 2 (13/10) (519/5) 11 12 14 15

/-- C5 dataset: at the queried position the hour-5 record carries the
`[0]` sentinel while the hour-6 record at the same coordinates has a
usable suggested point. -/
def c5data : List DataRow :=
  [⟨5, 13/10, 519/5, -1, .sentinel⟩, ⟨6, 13/10, 519/5, -1, .pts [(27/20, 2077/20)]⟩]

/-- An estimator reporting 2 km / 300 s for every pair. -/
def c5osrm : Osrm := fun _ _ _ _ => ⟨.fin 2000, 300⟩

/-- C7 dataset: a single hour-0 row with a usable point at its own
position, so state and action coincide across steps. -/
def c7data : List DataRow := [⟨0, 13/10, 519/5, -1, .pts [(13/10, 519/5)]⟩]

/-- An estimator whose distance makes the first Q-update store exactly
`0`: reward `= 2 - (29900/3)/1000 * 0.3 = -0.99`. -/
def c7osrm : Osrm := fun _ _ _ _ => ⟨.fin (29900/3), 60⟩

/-- Training-step draws: always explore, always index 0. -/
def c7senv : ℕ → TrainStepEnv := fun _ => ⟨true, 0⟩

/-- Episode-initialised training state at the row's position, hour 0,
fresh Q-table and mapping. -/
def c7start : TrainState :=
  { qTable := fun _ _ => none
    mapping := fun _ => none
    currentLat := 13/10
    currentLon := 519/5
    currentHour := 0 }

/-- The state/action pair exercised by the C7 run. -/
def c7S : Int × Int × Int := getState (13/10) (519/5) 0

/-- The action cell of the C7 run. -/
def c7A : Int × Int := getGridCell (13/10) (519/5)

/-! ## Helper lemmas -/

theorem head?_filter_eq_find? (p : α → Bool) (l : List α) :
    (l.filter p).head? = l.find? p := by
  induction l with
  | nil => rfl
  | cons a t ih =>
    by_cases h : p a <;> simp [List.filter_cons, List.find?_cons, h, ih]

theorem jsOr_eq_read (v : Option ℚ) :
    jsOr v 0.1 = if v = none ∨ v = some 0 then 0.1 else v.getD 0.1 := by
  match v with
  | none => rfl
  | some x =>
    by_cases hx : x = 0 <;> simp [jsOr, hx]

theorem intsAsc_mem {k a b : Int} : k ∈ intsAsc a b ↔ a ≤ k ∧ k ≤ b := by
  unfold intsAsc
  simp only [List.mem_map, List.mem_range]
  constructor
  · rintro ⟨n, hn, rfl⟩
    omega
  · rintro ⟨h1, h2⟩
    exact ⟨(k - a).toNat, by omega, by omega⟩

theorem intsAsc_nodup (a b : Int) : (intsAsc a b).Nodup := by
  unfold intsAsc
  refine List.Nodup.map ?_ (List.nodup_range _)
  intro x y hxy
  dsimp only at hxy
  omega

theorem intsAsc_snoc (a b : Int) (h : a ≤ b + 1) :
    intsAsc a (b + 1) = intsAsc a b ++ [b + 1] := by
  unfold intsAsc
  have h1 : (b + 1 + 1 - a).toNat = (b + 1 - a).toNat + 1 := by omega
  rw [h1, List.range_succ, List.map_append]
  congr 1
  simp only [List.map_cons, List.map_nil, List.cons.injEq, and_true]
  omega

theorem count_intsAsc (a b k : Int) :
    (intsAsc a b).count k = if a ≤ k ∧ k ≤ b then 1 else 0 := by
  rw [List.count_eq_of_nodup (intsAsc_nodup a b)]
  exact if_congr intsAsc_mem rfl rfl

theorem pickupIds_append (l1 l2 : List Location) :
    pickupIds (l1 ++ l2) = pickupIds l1 ++ pickupIds l2 := by
  unfold pickupIds
  rw [List.filter_append, List.map_append]

theorem pickupIds_cons_pickup (x : Location) (xs : List Location)
    (hx : x.type = LocType.pickup) :
    pickupIds (x :: xs) = x.tripId :: pickupIds xs := by
  unfold pickupIds
  rw [List.filter_cons, if_pos (by simpa using hx)]
  rfl

theorem pickupIds_cons_other (x : Location) (xs : List Location)
    (hx : ¬ x.type = LocType.pickup) :
    pickupIds (x :: xs) = pickupIds xs := by
  unfold pickupIds
  rw [List.filter_cons, if_neg (by simpa using hx)]

theorem countP_pickup_eq_count (locs : List Location) (t : Int) :
    locs.countP (fun l => decide (l.type = LocType.pickup ∧ l.tripId = t)) =
      (pickupIds locs).count t := by
  induction locs with
  | nil => rfl
  | cons x xs ih =>
    by_cases hx : x.type = LocType.pickup
    · rw [List.countP_cons, pickupIds_cons_pickup x xs hx, List.count_cons, ih]
      by_cases hid : x.tripId = t
      · simp [hx, hid]
      · simp [hx, hid, fun h : t = x.tripId => hid h.symm]
    · rw [List.countP_cons, pickupIds_cons_other x xs hx, ih]
      simp [hx]

theorem getD_append_left (l l2 : List α) (i : ℕ) (d : α) (h : i < l.length) :
    (l ++ l2).getD i d = l.getD i d := by
  induction l generalizing i with
  | nil => exact absurd h (by simp)
  | cons a t ih =>
    cases i with
    | zero => rfl
    | succ n => simpa using ih n (by simpa using h)

theorem getD_append_self (l : List α) (x d : α) :
    (l ++ [x]).getD l.length d = x := by
  induction l with
  | nil => rfl
  | cons a t ih => simp [ih]

/-- The pairing invariant maintained by both route-assembly loops:
`tripId` is the next pickup label minus one, the pickups seen so far
are exactly `0, 2, 3, …, tripId`, and every recorded drop-off is
paired as in `dropoffsPaired`. -/
def C1Inv (locs : List Location) (tid : Int) : Prop :=
  1 ≤ tid ∧ pickupIds locs = 0 :: intsAsc 2 tid ∧ dropoffsPaired locs

theorem c1inv_append_dropoff (locs : List Location) (tid : Int) (d : Location)
    (hty : d.type = LocType.dropoff) (hid : d.tripId = tid)
    (h : C1Inv locs tid) : C1Inv (locs ++ [d]) tid := by
  obtain ⟨h1, h2, h3⟩ := h
  refine ⟨h1, ?_, ?_⟩
  · rw [pickupIds_append, h2]
    have hnil : pickupIds [d] = [] := by
      unfold pickupIds
      simp [hty]
    rw [hnil, List.append_nil]
  · intro i hi hdi
    rw [List.mem_range, List.length_append] at hi
    simp only [List.length_cons, List.length_nil] at hi
    by_cases hlt : i < locs.length
    · have hgd : (locs ++ [d]).getD i dummyLoc = locs.getD i dummyLoc :=
        getD_append_left locs [d] i dummyLoc hlt
      have htake : (locs ++ [d]).take i = locs.take i :=
        List.take_append_of_le_length (by omega)
      rw [hgd] at hdi ⊢
      rw [htake]
      exact h3 i (List.mem_range.mpr hlt) hdi
    · have hieq : i = locs.length := by omega
      subst hieq
      rw [getD_append_self] at hdi ⊢
      rw [List.take_left]
      refine ⟨by omega, ?_⟩
      rw [countP_pickup_eq_count, h2, hid, List.count_cons, count_intsAsc]
      have hne : ¬ (tid = 0) := by omega
      by_cases h2t : 2 ≤ tid <;> simp [h2t, hne] <;> omega

theorem c1inv_append_pickup (locs : List Location) (tid : Int) (p : Location)
    (hty : p.type = LocType.pickup) (hid : p.tripId = tid + 1)
    (h : C1Inv locs tid) : C1Inv (locs ++ [p]) (tid + 1) := by
  obtain ⟨h1, h2, h3⟩ := h
  refine ⟨by omega, ?_, ?_⟩
  · rw [pickupIds_append, h2]
    have hone : pickupIds [p] = [p.tripId] := by
      unfold pickupIds
      simp [hty]
    rw [hone, hid, intsAsc_snoc 2 tid (by omega)]
    rfl
  · intro i hi hdi
    rw [List.mem_range, List.length_append] at hi
    simp only [List.length_cons, List.length_nil] at hi
    by_cases hlt : i < locs.length
    · have hgd : (locs ++ [p]).getD i dummyLoc = locs.getD i dummyLoc :=
        getD_append_left locs [p] i dummyLoc hlt
      have htake : (locs ++ [p]).take i = locs.take i :=
        List.take_append_of_le_length (by omega)
      rw [hgd] at hdi ⊢
      rw [htake]
      exact h3 i (List.mem_range.mpr hlt) hdi
    · have hieq : i = locs.length := by omega
      subst hieq
      rw [getD_append_self] at hdi
      rw [hty] at hdi
      exact absurd hdi (by simp)

theorem c1inv_rlDropPhase (data : List DataRow) (osrm : Osrm)
    (bs be : Int) (s : RLState) (h : C1Inv s.locations s.tripId) :
    C1Inv (rlDropPhase data osrm bs be s).1.locations
      (rlDropPhase data osrm bs be s).1.tripId := by
  unfold rlDropPhase
  dsimp only
  split
  · exact c1inv_append_dropoff _ _ _ rfl rfl h
  · exact h

theorem c1inv_rlPickupPhase (bs be endHour : Int) (step : RLStep)
    (sd : RLState × ℚ × ℚ) (h : C1Inv sd.1.locations sd.1.tripId) :
    C1Inv (rlPickupPhase bs be endHour step sd).1.locations
      (rlPickupPhase bs be endHour step sd).1.tripId := by
  unfold rlPickupPhase
  dsimp only
  split
  · exact h
  · split
    · exact h
    · exact c1inv_append_pickup _ _ _ rfl rfl h

theorem c1inv_rlGo (data : List DataRow) (osrm : Osrm) (env : ℕ → RLStep)
    (bs be endHour : Int) :
    ∀ (fuel i : ℕ) (s : RLState), C1Inv s.locations s.tripId →
      C1Inv (rlGo data osrm env bs be endHour fuel i s).locations
        (rlGo data osrm env bs be endHour fuel i s).tripId := by
  intro fuel
  induction fuel with
  | zero => intro i s h; exact h
  | succ n ih =>
    intro i s h
    unfold rlGo
    split
    · exact h
    · split
      · exact ih i _ h
      · rcases hpp : rlPickupPhase bs be endHour (env i)
            (rlDropPhase data osrm bs be s) with ⟨s1, b⟩
        have hinv : C1Inv s1.locations s1.tripId := by
          have := c1inv_rlPickupPhase bs be endHour (env i)
            (rlDropPhase data osrm bs be s)
            (c1inv_rlDropPhase data osrm bs be s h)
          rwa [hpp] at this
        cases b
        · simpa [hpp] using hinv
        · simp only [hpp]
          exact ih (i + 1) s1 hinv

theorem c1inv_greedyDropPhase (data : List DataRow) (osrm : Osrm) (r : ℚ)
    (bs be : Int) (s : GreedyState) (h : C1Inv s.locations s.tripId) :
    C1Inv (greedyDropPhase data osrm r bs be s).locations
      (greedyDropPhase data osrm r bs be s).tripId := by
  unfold greedyDropPhase
  dsimp only
  split
  · exact c1inv_append_dropoff _ _ _ rfl rfl h
  · exact h

theorem c1inv_greedyPickupPhase (data : List DataRow) (osrm : Osrm)
    (step : GreedyStep) (bs be endHour : Int) (s1 : GreedyState)
    (h : C1Inv s1.locations s1.tripId) :
    C1Inv (greedyPickupPhase data osrm step bs be endHour s1).1.locations
      (greedyPickupPhase data osrm step bs be endHour s1).1.tripId := by
  unfold greedyPickupPhase
  dsimp only
  split
  · exact h
  · split
    · exact h
    · split
      · exact h
      · exact c1inv_append_pickup _ _ _ rfl rfl h

theorem c1inv_greedyGo (data : List DataRow) (osrm : Osrm) (genv : ℕ → GreedyStep)
    (bs be endHour : Int) :
    ∀ (fuel i : ℕ) (s : GreedyState), C1Inv s.locations s.tripId →
      C1Inv (greedyGo data osrm genv bs be endHour fuel i s).locations
        (greedyGo data osrm genv bs be endHour fuel i s).tripId := by
  intro fuel
  induction fuel with
  | zero => intro i s h; exact h
  | succ n ih =>
    intro i s h
    unfold greedyGo
    split
    · exact h
    · split
      · exact ih i _ h
      · rcases hpp : greedyPickupPhase data osrm (genv i) bs be endHour
            (greedyDropPhase data osrm (genv i).rDrop bs be s) with ⟨s1, b⟩
        have hinv : C1Inv s1.locations s1.tripId := by
          have := c1inv_greedyPickupPhase data osrm (genv i) bs be endHour
            (greedyDropPhase data osrm (genv i).rDrop bs be s)
            (c1inv_greedyDropPhase data osrm (genv i).rDrop bs be s h)
          rwa [hpp] at this
        cases b
        · simpa [hpp] using hinv
        · simp only [hpp]
          exact ih (i + 1) s1 hinv

theorem c1inv_init (startLat startLon : ℚ) (startHour : Int) :
    C1Inv [seedLocation startLat startLon startHour] 1 := by
  refine ⟨le_refl 1, ?_, ?_⟩
  · unfold pickupIds seedLocation intsAsc
    simp
  · intro i hi hdi
    rw [List.mem_range] at hi
    simp only [List.length_cons, List.length_nil] at hi
    have : i = 0 := by omega
    subst this
    exact absurd hdi (by simp [seedLocation])

theorem carryGo_hour (bs be : Int) :
    ∀ (fuel : ℕ) (t m : Int), ¬ (bs ≤ t ∧ t < be) →
      ¬ (bs ≤ (carryGo bs be fuel t m).1 ∧ (carryGo bs be fuel t m).1 < be) := by
  intro fuel
  induction fuel with
  | zero => intro t m h; exact h
  | succ n ih =>
    intro t m h
    unfold carryGo
    split
    · split
      · omega
      · exact ih (t + 1) (m - 60) (by assumption)
    · exact h

theorem carryGo_m_nonneg (bs be : Int) :
    ∀ (fuel : ℕ) (t m : Int), 0 ≤ m → 0 ≤ (carryGo bs be fuel t m).2 := by
  intro fuel
  induction fuel with
  | zero => intro t m h; exact h
  | succ n ih =>
    intro t m h
    unfold carryGo
    split
    · split
      · exact le_refl 0
      · exact ih (t + 1) (m - 60) (by omega)
    · exact h

theorem carryGo_m_lt (bs be : Int) :
    ∀ (fuel : ℕ) (t m : Int), m.toNat ≤ fuel → (carryGo bs be fuel t m).2 < 60 := by
  intro fuel
  induction fuel with
  | zero => intro t m h; dsimp only [carryGo]; omega
  | succ n ih =>
    intro t m h
    unfold carryGo
    split
    · split
      · omega
      · exact ih (t + 1) (m - 60) (by omega)
    · omega

theorem carry_hour (bs be t m : Int) (h : ¬ (bs ≤ t ∧ t < be)) :
    ¬ (bs ≤ (carry bs be t m).1 ∧ (carry bs be t m).1 < be) :=
  carryGo_hour bs be m.toNat t m h

theorem carry_m_nonneg (bs be t m : Int) (h : 0 ≤ m) :
    0 ≤ (carry bs be t m).2 :=
  carryGo_m_nonneg bs be m.toNat t m h

theorem carry_m_lt (bs be t m : Int) : (carry bs be t m).2 < 60 :=
  carryGo_m_lt bs be m.toNat t m (le_refl _)

theorem outside_break_of (bs be : Int) (l : Location)
    (hh : ¬ (bs ≤ l.absTime.1 ∧ l.absTime.1 < be)) (h0 : 0 ≤ l.absTime.2)
    (h60 : l.absTime.2 < 60) : ¬ insideBreak bs be l := by
  unfold insideBreak
  omega

theorem mem_drop_one_append (l : List α) (e x : α)
    (hx : x ∈ (l ++ [e]).drop 1) : x ∈ l.drop 1 ∨ x = e := by
  cases l with
  | nil => simp at hx
  | cons a t =>
    simp only [List.cons_append, List.drop_succ_cons, List.drop_zero,
      List.mem_append, List.mem_singleton] at hx
    simpa using hx

/-- The travel estimator reports only nonnegative durations (true of
the production adapter: OSRM durations are nonnegative and the
haversine fallback is `km * 120` with `km ≥ 0`). -/
def osrmDurNonneg (osrm : Osrm) : Prop :=
  ∀ a b c d : ℚ, 0 ≤ (osrm a b c d).duration

theorem pickR_mem (r : ℚ) (l : List α) (d : α) (hd : d ∈ l) : pickR r l d ∈ l := by
  unfold pickR
  rcases Nat.lt_or_ge (Int.floor (r * l.length)).toNat l.length with h | h
  · rw [List.getD_eq_getElem?_getD, List.getElem?_eq_getElem h]
    exact List.getElem_mem _
  · rw [List.getD_eq_getElem?_getD, List.getElem?_eq_none (by omega)]
    exact hd

theorem mem_insertByDistance (x y : DataRow × TravelEst)
    (l : List (DataRow × TravelEst)) :
    x ∈ insertByDistance y l ↔ x = y ∨ x ∈ l := by
  induction l with
  | nil => simp [insertByDistance]
  | cons a t ih =>
    unfold insertByDistance
    split
    · simp only [List.mem_cons]
      try tauto
    · simp only [List.mem_cons, ih]
      try tauto

theorem mem_sortByDistance (x : DataRow × TravelEst)
    (l : List (DataRow × TravelEst)) :
    x ∈ sortByDistance l ↔ x ∈ l := by
  unfold sortByDistance
  suffices h : ∀ (acc : List (DataRow × TravelEst)),
      (x ∈ l.foldl (fun acc y => insertByDistance y acc) acc ↔ x ∈ l ∨ x ∈ acc) by
    simpa using h []
  induction l with
  | nil => intro acc; simp
  | cons a t ih =>
    intro acc
    simp only [List.foldl_cons, ih, mem_insertByDistance, List.mem_cons]
    tauto

theorem rlDropFoldStep_duration_nonneg (data : List DataRow) (osrm : Osrm)
    (lat lon : ℚ) (t : Int) (hosrm : osrmDurNonneg osrm)
    (b : Option (ℚ × RLDrop)) (point : ℚ × ℚ)
    (hb : ∀ sc dr, b = some (sc, dr) → 0 ≤ dr.duration) :
    ∀ sc dr, rlDropFoldStep data osrm lat lon t b point = some (sc, dr) →
      0 ≤ dr.duration := by
  intro sc dr h
  unfold rlDropFoldStep at h
  dsimp only at h
  split at h
  · exact hb sc dr h
  · rcases b with _ | ⟨bs2, bd2⟩
    · simp only [Option.some.injEq, Prod.mk.injEq] at h
      rw [← h.2]
      exact hosrm lon lat point.2 point.1
    · dsimp only at h
      split at h
      · simp only [Option.some.injEq, Prod.mk.injEq] at h
        rw [← h.2]
        exact hosrm lon lat point.2 point.1
      · simp only [Option.some.injEq, Prod.mk.injEq] at h
        rw [← h.2]
        exact hb bs2 bd2 rfl

theorem rlBestDrop_duration_nonneg (data : List DataRow) (osrm : Osrm)
    (lat lon : ℚ) (t : Int) (hosrm : osrmDurNonneg osrm) (d : RLDrop)
    (hd : rlBestDrop data osrm lat lon t = some d) : 0 ≤ d.duration := by
  unfold rlBestDrop at hd
  rcases hfl : data.filter
      (fun row => decide (row.hour = t) && matchCoords row lat lon) with _ | ⟨row, rest⟩
  · rw [hfl] at hd
    exact absurd hd (by simp)
  · rw [hfl] at hd
    dsimp only at hd
    by_cases hus : row.dropGroupedPoints.usable
    · rw [if_pos hus] at hd
      have key : ∀ (b : Option (ℚ × RLDrop)), b =
          row.dropGroupedPoints.list.foldl
            (rlDropFoldStep data osrm lat lon t) none →
          ∀ sc dr, b = some (sc, dr) → 0 ≤ dr.duration := by
        intro b hbeq
        rw [hbeq]
        refine List.foldlRecOn
          (motive := fun b => ∀ (sc : ℚ) (dr : RLDrop), b = some (sc, dr) → 0 ≤ dr.duration)
          row.dropGroupedPoints.list _ none
          (by intro sc dr h; exact absurd h (by simp)) ?_
        intro b2 hb2 point hpt
        exact rlDropFoldStep_duration_nonneg data osrm lat lon t hosrm b2 point hb2
      rcases hbb : row.dropGroupedPoints.list.foldl
          (rlDropFoldStep data osrm lat lon t) none with _ | ⟨sc, dr⟩
      · rw [hbb] at hd
        exact absurd hd (by simp)
      · rw [hbb] at hd
        have hd2 : dr = d := by simpa using hd
        rw [← hd2]
        exact key _ hbb.symm sc dr rfl
    · rw [if_neg hus] at hd
      exact absurd hd (by simp)

theorem mem_take_of_mem {l : List α} {n : ℕ} {x : α} (h : x ∈ l.take n) : x ∈ l :=
  List.mem_of_mem_take h

theorem foldl_choice_mem (p : DropResult → DropResult → Prop) [DecidableRel p]
    (l : List DropResult) (c : DropResult) :
    l.foldl (fun mx cur => if p cur mx then cur else mx) c ∈ c :: l := by
  induction l generalizing c with
  | nil => simp
  | cons a t ih =>
    simp only [List.foldl_cons]
    have h := ih (if p a c then a else c)
    rcases List.mem_cons.mp h with h1 | h1
    · rw [h1]
      split <;> simp
    · simp [List.mem_cons.mpr (Or.inr (List.mem_cons.mpr (Or.inr h1)))]

theorem gapFallback_duration_nonneg (data : List DataRow) (osrm : Osrm) (r : ℚ)
    (lat lon : ℚ) (t : Int) (hosrm : osrmDurNonneg osrm) :
    0 ≤ (gapFallback data osrm r lat lon t).duration := by
  unfold gapFallback
  rcases hcl : ((sortByDistance
      (((data.filter fun row => decide (row.hour = t) && decide (row.predictions > 0)).map
        (fun row => (row, osrm lon lat row.LONGITUDE row.LATITUDE))).filter
        (fun p => !p.2.distance.isInf))).take 20) with _ | ⟨c, rest⟩
  · simp only [hcl]
    exact le_refl 0
  · simp only [hcl]
    have hsub : ∀ x, x ∈ c :: rest →
        ∃ row, x = (row, osrm lon lat row.LONGITUDE row.LATITUDE) := by
      intro x hx
      rw [← hcl] at hx
      have hx2 := mem_take_of_mem hx
      rw [mem_sortByDistance] at hx2
      have hx3 := List.mem_of_mem_filter hx2
      rcases List.mem_map.mp hx3 with ⟨row, _, heq⟩
      exact ⟨row, heq.symm⟩
    rcases hsub _ (pickR_mem r (c :: rest) c (by simp)) with ⟨row, heq⟩
    rw [heq]
    exact hosrm lon lat row.LONGITUDE row.LATITUDE

theorem dropCandidates_duration_nonneg (osrm : Osrm) (lat lon : ℚ)
    (pts : List (ℚ × ℚ)) (hosrm : osrmDurNonneg osrm) (c : DropResult)
    (hc : c ∈ dropCandidates osrm lat lon pts) : 0 ≤ c.duration := by
  unfold dropCandidates at hc
  rcases List.mem_filterMap.mp hc with ⟨point, _, heq⟩
  dsimp only at heq
  split at heq
  · exact absurd heq (by simp)
  · simp only [Option.some.injEq] at heq
    rw [← heq]
    exact hosrm lon lat point.2 point.1

theorem getBestDropOffLocation_duration_nonneg (data : List DataRow) (osrm : Osrm)
    (r : ℚ) (lat lon : ℚ) (t : Int) (hosrm : osrmDurNonneg osrm) :
    0 ≤ (getBestDropOffLocation data osrm r lat lon t).duration := by
  unfold getBestDropOffLocation
  cases hu : unusableSel (dropLocationsSearch data lat lon t) with
  | true =>
    simp only [hu, if_true]
    exact gapFallback_duration_nonneg data osrm r lat lon t hosrm
  | false =>
    simp only [hu, Bool.false_eq_true, if_false]
    rcases hcs : dropCandidates osrm lat lon
        (((dropLocationsSearch data lat lon t).getD DropPoints.sentinel).list) with _ | ⟨c, rest⟩
    · simp only [hcs]
      exact le_refl 0
    · simp only [hcs]
      have hdur : ∀ x ∈ c :: rest, 0 ≤ x.duration := by
        intro x hx
        exact dropCandidates_duration_nonneg osrm lat lon _ hosrm x (hcs ▸ hx)
      have hmem := foldl_choice_mem (fun cur mx => cur.revenue > mx.revenue) (c :: rest) c
      rcases List.mem_cons.mp hmem with h1 | h1
      · rw [h1]
        exact hdur c (List.mem_cons_self c rest)
      · exact hdur _ h1

theorem c2_carry_event (bs be t m : Int) (d : ℚ)
    (hh : ¬ (bs ≤ t ∧ t < be)) (hm : 0 ≤ m) (hd : 0 ≤ d) :
    ¬ (bs ≤ (carry bs be t (m + Int.ceil (d / 60))).1 ∧
        (carry bs be t (m + Int.ceil (d / 60))).1 < be) ∧
      0 ≤ (carry bs be t (m + Int.ceil (d / 60))).2 ∧
      (carry bs be t (m + Int.ceil (d / 60))).2 < 60 := by
  have hc : (0:ℤ) ≤ Int.ceil (d / 60) :=
    Int.ceil_nonneg (div_nonneg hd (by norm_num))
  exact ⟨carry_hour _ _ _ _ hh, carry_m_nonneg _ _ _ _ (by omega), carry_m_lt _ _ _ _⟩

theorem head?_append_some (l : List α) (e x : α) (h : l.head? = some x) :
    (l ++ [e]).head? = some x := by
  cases l with
  | nil => exact absurd h (by simp)
  | cons a t => simpa using h

/-- The break-exclusion invariant of the RL loop state: nonnegative
minute cursor and no recorded event after the seed inside the break
window. -/
def rlC2Inv (bs be : Int) (s : RLState) : Prop :=
  0 ≤ s.currentMinutes ∧ ∀ l ∈ s.locations.drop 1, ¬ insideBreak bs be l

/-- The break-exclusion invariant of the greedy loop state. -/
def greedyC2Inv (bs be : Int) (s : GreedyState) : Prop :=
  0 ≤ s.currentMinutes ∧ ∀ l ∈ s.locations.drop 1, ¬ insideBreak bs be l

theorem c2inv_rlDropPhase (data : List DataRow) (osrm : Osrm) (bs be : Int)
    (s : RLState) (hosrm : osrmDurNonneg osrm)
    (hh : ¬ (bs ≤ s.currentTime ∧ s.currentTime < be)) (h : rlC2Inv bs be s) :
    rlC2Inv bs be (rlDropPhase data osrm bs be s).1 ∧
      ¬ (bs ≤ (rlDropPhase data osrm bs be s).1.currentTime ∧
          (rlDropPhase data osrm bs be s).1.currentTime < be) := by
  have hdur : (0:ℚ) ≤ match rlBestDrop data osrm s.currentLat s.currentLon s.currentTime with
      | none => 0
      | some d => d.duration := by
    rcases hbd : rlBestDrop data osrm s.currentLat s.currentLon s.currentTime with _ | d
    · exact le_refl 0
    · exact rlBestDrop_duration_nonneg data osrm _ _ _ hosrm d hbd
  have hcarry := c2_carry_event bs be s.currentTime s.currentMinutes _ hh h.1 hdur
  unfold rlDropPhase
  dsimp only
  refine ⟨⟨hcarry.2.1, ?_⟩, hcarry.1⟩
  intro l hl
  split at hl
  · rcases mem_drop_one_append _ _ _ hl with h1 | h1
    · exact h.2 l h1
    · rw [h1]
      exact outside_break_of bs be _ hcarry.1 hcarry.2.1 hcarry.2.2
  · exact h.2 l hl

theorem c2inv_rlPickupPhase (bs be endHour : Int) (step : RLStep)
    (sd : RLState × ℚ × ℚ) (hdur : 0 ≤ step.pickupEst.duration)
    (hh : ¬ (bs ≤ sd.1.currentTime ∧ sd.1.currentTime < be))
    (h : rlC2Inv bs be sd.1) :
    rlC2Inv bs be (rlPickupPhase bs be endHour step sd).1 := by
  have hcarry := c2_carry_event bs be sd.1.currentTime sd.1.currentMinutes _ hh h.1 hdur
  unfold rlPickupPhase
  dsimp only
  split
  · exact h
  · split
    · exact h
    · refine ⟨hcarry.2.1, ?_⟩
      intro l hl
      rcases mem_drop_one_append _ _ _ hl with h1 | h1
      · exact h.2 l h1
      · rw [h1]
        exact outside_break_of bs be _ hcarry.1 hcarry.2.1 hcarry.2.2

theorem c2inv_rlGo (data : List DataRow) (osrm : Osrm) (env : ℕ → RLStep)
    (bs be endHour : Int) (hosrm : osrmDurNonneg osrm)
    (henv : ∀ i, 0 ≤ (env i).pickupEst.duration) :
    ∀ (fuel i : ℕ) (s : RLState), rlC2Inv bs be s →
      rlC2Inv bs be (rlGo data osrm env bs be endHour fuel i s) := by
  intro fuel
  induction fuel with
  | zero => intro i s h; exact h
  | succ n ih =>
    intro i s h
    unfold rlGo
    split
    · exact h
    · split
      · exact ih i _ ⟨le_refl 0, h.2⟩
      · rcases hpp : rlPickupPhase bs be endHour (env i)
            (rlDropPhase data osrm bs be s) with ⟨s1, b⟩
        have hdp := c2inv_rlDropPhase data osrm bs be s hosrm (by assumption) h
        have hinv : rlC2Inv bs be s1 := by
          have := c2inv_rlPickupPhase bs be endHour (env i)
            (rlDropPhase data osrm bs be s) (henv i) hdp.2 hdp.1
          rwa [hpp] at this
        cases b
        · simpa [hpp] using hinv
        · simp only [hpp]
          exact ih (i + 1) s1 hinv

theorem c2inv_greedyDropPhase (data : List DataRow) (osrm : Osrm) (r : ℚ)
    (bs be : Int) (s : GreedyState) (hosrm : osrmDurNonneg osrm)
    (hh : ¬ (bs ≤ s.currentTime ∧ s.currentTime < be)) (h : greedyC2Inv bs be s) :
    greedyC2Inv bs be (greedyDropPhase data osrm r bs be s) ∧
      ¬ (bs ≤ (greedyDropPhase data osrm r bs be s).currentTime ∧
          (greedyDropPhase data osrm r bs be s).currentTime < be) := by
  have hdur := getBestDropOffLocation_duration_nonneg data osrm r
    s.currentLat s.currentLon s.currentTime hosrm
  have hcarry := c2_carry_event bs be s.currentTime s.currentMinutes _ hh h.1 hdur
  unfold greedyDropPhase
  dsimp only
  split
  · refine ⟨⟨hcarry.2.1, ?_⟩, hcarry.1⟩
    intro l hl
    rcases mem_drop_one_append _ _ _ hl with h1 | h1
    · exact h.2 l h1
    · rw [h1]
      exact outside_break_of bs be _ hcarry.1 hcarry.2.1 hcarry.2.2
  · exact ⟨h, hh⟩

theorem c2inv_greedyPickupPhase (data : List DataRow) (osrm : Osrm)
    (step : GreedyStep) (bs be endHour : Int) (s1 : GreedyState)
    (hdur : 0 ≤ step.pickupEst.duration)
    (hh : ¬ (bs ≤ s1.currentTime ∧ s1.currentTime < be))
    (h : greedyC2Inv bs be s1) :
    greedyC2Inv bs be (greedyPickupPhase data osrm step bs be endHour s1).1 := by
  have hcarry := c2_carry_event bs be s1.currentTime s1.currentMinutes _ hh h.1 hdur
  unfold greedyPickupPhase
  dsimp only
  split
  · exact h
  · split
    · exact ⟨h.1, h.2⟩
    · split
      · exact ⟨h.1, h.2⟩
      · refine ⟨hcarry.2.1, ?_⟩
        intro l hl
        rcases mem_drop_one_append _ _ _ hl with h1 | h1
        · exact h.2 l h1
        · rw [h1]
          exact outside_break_of bs be _ hcarry.1 hcarry.2.1 hcarry.2.2

theorem c2inv_greedyGo (data : List DataRow) (osrm : Osrm) (genv : ℕ → GreedyStep)
    (bs be endHour : Int) (hosrm : osrmDurNonneg osrm)
    (henv : ∀ i, 0 ≤ (genv i).pickupEst.duration) :
    ∀ (fuel i : ℕ) (s : GreedyState), greedyC2Inv bs be s →
      greedyC2Inv bs be (greedyGo data osrm genv bs be endHour fuel i s) := by
  intro fuel
  induction fuel with
  | zero => intro i s h; exact h
  | succ n ih =>
    intro i s h
    unfold greedyGo
    split
    · exact h
    · split
      · exact ih i _ ⟨le_refl 0, h.2⟩
      · rcases hpp : greedyPickupPhase data osrm (genv i) bs be endHour
            (greedyDropPhase data osrm (genv i).rDrop bs be s) with ⟨s1, b⟩
        have hdp := c2inv_greedyDropPhase data osrm (genv i).rDrop bs be s hosrm
          (by assumption) h
        have hinv : greedyC2Inv bs be s1 := by
          have := c2inv_greedyPickupPhase data osrm (genv i) bs be endHour
            (greedyDropPhase data osrm (genv i).rDrop bs be s) (henv i) hdp.2 hdp.1
          rwa [hpp] at this
        cases b
        · simpa [hpp] using hinv
        · simp only [hpp]
          exact ih (i + 1) s1 hinv

theorem rl_head_rlDropPhase (data : List DataRow) (osrm : Osrm) (bs be : Int)
    (s : RLState) (x : Location) (h : s.locations.head? = some x) :
    (rlDropPhase data osrm bs be s).1.locations.head? = some x := by
  unfold rlDropPhase
  dsimp only
  split
  · exact head?_append_some _ _ _ h
  · exact h

theorem rl_head_rlPickupPhase (bs be endHour : Int) (step : RLStep)
    (sd : RLState × ℚ × ℚ) (x : Location) (h : sd.1.locations.head? = some x) :
    (rlPickupPhase bs be endHour step sd).1.locations.head? = some x := by
  unfold rlPickupPhase
  dsimp only
  split
  · exact h
  · split
    · exact h
    · exact head?_append_some _ _ _ h

theorem rl_head_rlGo (data : List DataRow) (osrm : Osrm) (env : ℕ → RLStep)
    (bs be endHour : Int) (x : Location) :
    ∀ (fuel i : ℕ) (s : RLState), s.locations.head? = some x →
      (rlGo data osrm env bs be endHour fuel i s).locations.head? = some x := by
  intro fuel
  induction fuel with
  | zero => intro i s h; exact h
  | succ n ih =>
    intro i s h
    unfold rlGo
    split
    · exact h
    · split
      · exact ih i _ h
      · rcases hpp : rlPickupPhase bs be endHour (env i)
            (rlDropPhase data osrm bs be s) with ⟨s1, b⟩
        have hh : s1.locations.head? = some x := by
          have := rl_head_rlPickupPhase bs be endHour (env i)
            (rlDropPhase data osrm bs be s) x
            (rl_head_rlDropPhase data osrm bs be s x h)
          rwa [hpp] at this
        cases b
        · simpa [hpp] using hh
        · simp only [hpp]
          exact ih (i + 1) s1 hh

theorem greedy_head_dropPhase (data : List DataRow) (osrm : Osrm) (r : ℚ)
    (bs be : Int) (s : GreedyState) (x : Location)
    (h : s.locations.head? = some x) :
    (greedyDropPhase data osrm r bs be s).locations.head? = some x := by
  unfold greedyDropPhase
  dsimp only
  split
  · exact head?_append_some _ _ _ h
  · exact h

theorem greedy_head_pickupPhase (data : List DataRow) (osrm : Osrm)
    (step : GreedyStep) (bs be endHour : Int) (s1 : GreedyState) (x : Location)
    (h : s1.locations.head? = some x) :
    (greedyPickupPhase data osrm step bs be endHour s1).1.locations.head? = some x := by
  unfold greedyPickupPhase
  dsimp only
  split
  · exact h
  · split
    · exact h
    · split
      · exact h
      · exact head?_append_some _ _ _ h

theorem greedy_head_go (data : List DataRow) (osrm : Osrm) (genv : ℕ → GreedyStep)
    (bs be endHour : Int) (x : Location) :
    ∀ (fuel i : ℕ) (s : GreedyState), s.locations.head? = some x →
      (greedyGo data osrm genv bs be endHour fuel i s).locations.head? = some x := by
  intro fuel
  induction fuel with
  | zero => intro i s h; exact h
  | succ n ih =>
    intro i s h
    unfold greedyGo
    split
    · exact h
    · split
      · exact ih i _ h
      · rcases hpp : greedyPickupPhase data osrm (genv i) bs be endHour
            (greedyDropPhase data osrm (genv i).rDrop bs be s) with ⟨s1, b⟩
        have hh : s1.locations.head? = some x := by
          have := greedy_head_pickupPhase data osrm (genv i) bs be endHour
            (greedyDropPhase data osrm (genv i).rDrop bs be s) x
            (greedy_head_dropPhase data osrm (genv i).rDrop bs be s x h)
          rwa [hpp] at this
        cases b
        · simpa [hpp] using hh
        · simp only [hpp]
          exact ih (i + 1) s1 hh

theorem rlDropPhase_flag (data : List DataRow) (osrm : Osrm) (bs be : Int)
    (s : RLState) :
    (rlDropPhase data osrm bs be s).1.stoppedUnreachable = s.stoppedUnreachable := rfl

theorem rlPickupPhase_flag (bs be endHour : Int) (step : RLStep)
    (sd : RLState × ℚ × ℚ) (hfin : step.pickupEst.distance.isInf = false) :
    (rlPickupPhase bs be endHour step sd).1.stoppedUnreachable =
      sd.1.stoppedUnreachable := by
  unfold rlPickupPhase
  dsimp only
  split
  · rfl
  · rw [hfin]
    simp only [Bool.false_eq_true, if_false]

theorem rlGo_flag (data : List DataRow) (osrm : Osrm) (env : ℕ → RLStep)
    (bs be endHour : Int) (henv : ∀ i, (env i).pickupEst.distance.isInf = false) :
    ∀ (fuel i : ℕ) (s : RLState),
      (rlGo data osrm env bs be endHour fuel i s).stoppedUnreachable =
        s.stoppedUnreachable := by
  intro fuel
  induction fuel with
  | zero => intro i s; rfl
  | succ n ih =>
    intro i s
    unfold rlGo
    split
    · rfl
    · split
      · exact ih i _
      · rcases hpp : rlPickupPhase bs be endHour (env i)
            (rlDropPhase data osrm bs be s) with ⟨s1, b⟩
        have hfl : s1.stoppedUnreachable = s.stoppedUnreachable := by
          have h1 := rlPickupPhase_flag bs be endHour (env i)
            (rlDropPhase data osrm bs be s) (henv i)
          rw [hpp] at h1
          rw [h1, rlDropPhase_flag]
        cases b
        · simpa [hpp] using hfl
        · simp only [hpp]
          rw [ih (i + 1) s1, hfl]

theorem greedyDropPhase_skips (data : List DataRow) (osrm : Osrm) (r : ℚ)
    (bs be : Int) (s : GreedyState) :
    (greedyDropPhase data osrm r bs be s).unreachableSkips = s.unreachableSkips := by
  unfold greedyDropPhase
  dsimp only
  split <;> rfl

theorem greedyPickupPhase_skips (data : List DataRow) (osrm : Osrm)
    (step : GreedyStep) (bs be endHour : Int) (s1 : GreedyState)
    (hfin : step.pickupEst.distance.isInf = false) :
    (greedyPickupPhase data osrm step bs be endHour s1).1.unreachableSkips =
      s1.unreachableSkips := by
  unfold greedyPickupPhase
  dsimp only
  split
  · rfl
  · split
    · rfl
    · rw [hfin]
      simp only [Bool.false_eq_true, if_false]

theorem greedyGo_skips (data : List DataRow) (osrm : Osrm) (genv : ℕ → GreedyStep)
    (bs be endHour : Int) (henv : ∀ i, (genv i).pickupEst.distance.isInf = false) :
    ∀ (fuel i : ℕ) (s : GreedyState),
      (greedyGo data osrm genv bs be endHour fuel i s).unreachableSkips =
        s.unreachableSkips := by
  intro fuel
  induction fuel with
  | zero => intro i s; rfl
  | succ n ih =>
    intro i s
    unfold greedyGo
    split
    · rfl
    · split
      · exact ih i _
      · rcases hpp : greedyPickupPhase data osrm (genv i) bs be endHour
            (greedyDropPhase data osrm (genv i).rDrop bs be s) with ⟨s1, b⟩
        have hfl : s1.unreachableSkips = s.unreachableSkips := by
          have h1 := greedyPickupPhase_skips data osrm (genv i) bs be endHour
            (greedyDropPhase data osrm (genv i).rDrop bs be s) (henv i)
          rw [hpp] at h1
          rw [h1, greedyDropPhase_skips]
        cases b
        · simpa [hpp] using hfl
        · simp only [hpp]
          rw [ih (i + 1) s1, hfl]

theorem foldl_firstMax :
    ∀ (l : List DropResult) (c : DropResult),
      isFirstMaxRevenue (c :: l)
        (l.foldl (fun mx cur => if cur.revenue > mx.revenue then cur else mx) c) := by
  intro l
  induction l with
  | nil =>
    intro c
    refine ⟨0, by simp, rfl, ?_, ?_⟩
    · intro x hx
      rw [List.mem_singleton.mp hx]
      exact le_refl _
    · intro j hj hj0
      omega
  | cons a t ih =>
    intro c
    simp only [List.foldl_cons]
    by_cases hac : a.revenue > c.revenue
    · rw [if_pos hac]
      obtain ⟨i, hi, heq, hub, hstrict⟩ := ih a
      refine ⟨i + 1, Nat.succ_lt_succ hi, heq, ?_, ?_⟩
      · intro x hx
        rcases List.mem_cons.mp hx with h1 | h1
        · rw [h1]
          exact le_of_lt (lt_of_lt_of_le hac (hub a (List.mem_cons_self a t)))
        · exact hub x h1
      · intro j hj hjlt
        cases j with
        | zero => exact lt_of_lt_of_le hac (hub a (List.mem_cons_self a t))
        | succ k =>
          exact hstrict k (Nat.lt_of_succ_lt_succ hj) (Nat.lt_of_succ_lt_succ hjlt)
    · rw [if_neg hac]
      obtain ⟨i, hi, heq, hub, hstrict⟩ := ih c
      have hub2 : ∀ x ∈ c :: a :: t,
          x.revenue ≤ (t.foldl
            (fun mx cur => if cur.revenue > mx.revenue then cur else mx) c).revenue := by
        intro x hx
        rcases List.mem_cons.mp hx with h1 | h1
        · rw [h1]
          exact hub c (List.mem_cons_self c t)
        · rcases List.mem_cons.mp h1 with h2 | h2
          · rw [h2]
            exact le_trans (not_lt.mp hac) (hub c (List.mem_cons_self c t))
          · exact hub x (List.mem_cons.mpr (Or.inr h2))
      cases i with
      | zero =>
        refine ⟨0, Nat.succ_pos _, heq, hub2, ?_⟩
        intro j hj hj0
        omega
      | succ k =>
        refine ⟨k + 2, Nat.succ_lt_succ hi, heq, hub2, ?_⟩
        intro j hj hjlt
        cases j with
        | zero => exact hstrict 0 (Nat.succ_pos _) (Nat.succ_pos _)
        | succ j1 =>
          cases j1 with
          | zero =>
            exact lt_of_le_of_lt (not_lt.mp hac)
              (hstrict 0 (Nat.succ_pos _) (Nat.succ_pos _))
          | succ m =>
            exact hstrict (m + 1) (Nat.lt_of_succ_lt_succ hj)
              (Nat.lt_of_succ_lt_succ hjlt)

theorem c5_searchEq (data : List DataRow) (osrm : Osrm) (r lat lon : ℚ) (h : Int) :
    getBestDropOffLocation data osrm r lat lon h =
      specBestDropoff data osrm r lat lon h := by
  unfold getBestDropOffLocation specBestDropoff dropLocationsSearch
  rcases hra : recordsAt data h lat lon with _ | ⟨row, rest⟩
  · rcases hhs : hourSearch data lat lon h with _ | p
    · rfl
    · cases hu : p.usable with
      | true => simp [unusableSel, hu]
      | false => simp [unusableSel, hu]
  · cases hu : row.dropGroupedPoints.usable with
    | true => simp [unusableSel, hu]
    | false => simp [unusableSel, hu]

/-! ## Claim theorems -/

/-- C2 (amended): in every route produced by either dispatcher's
`findRoute` with break window `[breakStart, breakEnd)` — under
estimators and oracle environments reporting nonnegative durations, as
the production adapter does — no event after the initial seed event is
stamped inside `[breakStart:00, breakEnd:00)`; the first event is the
seed, stamped at the start time, so it lies inside the window exactly
when the caller's start hour does.  The break-window check-and-snap
after every minute-to-hour carry gives the claimed scenario: a travel
advance that would land the cursor at 12:30 with break window 12–13
produces an event stamped exactly 1:00 PM (absolute cursor 13:00). -/
theorem c2_amended :
    (∀ (data : List DataRow) (osrm : Osrm) (env : ℕ → RLStep) (fuel : ℕ)
        (startLat startLon : ℚ) (startHour endHour bs be : Int),
      osrmDurNonneg osrm → (∀ i, 0 ≤ (env i).pickupEst.duration) →
      (rlFindRoute data osrm env fuel startLat startLon startHour
          endHour bs be).locations.head? =
        some (seedLocation startLat startLon startHour) ∧
      ∀ l ∈ (rlFindRoute data osrm env fuel startLat startLon startHour
          endHour bs be).locations.drop 1, ¬ insideBreak bs be l) ∧
    (∀ (data : List DataRow) (osrm : Osrm) (genv : ℕ → GreedyStep) (fuel : ℕ)
        (startLat startLon : ℚ) (startHour endHour bs be : Int),
      osrmDurNonneg osrm → (∀ i, 0 ≤ (genv i).pickupEst.duration) →
      (greedyFindRoute data osrm genv fuel startLat startLon startHour
          endHour bs be).locations.head? =
        some (seedLocation startLat startLon startHour) ∧
      ∀ l ∈ (greedyFindRoute data osrm genv fuel startLat startLon startHour
          endHour bs be).locations.drop 1, ¬ insideBreak bs be l) ∧
    (c2scnRoute.locations.map (fun l => l.time) =
        [⟨11, 0, false⟩, ⟨1, 0, true⟩] ∧
      (c2scnRoute.locations.getD 1 dummyLoc).absTime = (13, 0)) := by
  refine ⟨?_, ?_, by decide!⟩
  · intro data osrm env fuel startLat startLon startHour endHour bs be hosrm henv
    constructor
    · exact rl_head_rlGo data osrm env bs be endHour _ fuel 0
        (rlInitState startLat startLon startHour) rfl
    · exact (c2inv_rlGo data osrm env bs be endHour hosrm henv fuel 0
        (rlInitState startLat startLon startHour)
        ⟨le_refl 0, by intro l hl; simp [rlInitState] at hl⟩).2
  · intro data osrm genv fuel startLat startLon startHour endHour bs be hosrm henv
    constructor
    · exact greedy_head_go data osrm genv bs be endHour _ fuel 0
        (greedyInitState startLat startLon startHour) rfl
    · exact (c2inv_greedyGo data osrm genv bs be endHour hosrm henv fuel 0
        (greedyInitState startLat startLon startHour)
        ⟨le_refl 0, by intro l hl; simp [greedyInitState] at hl⟩).2

/-- Witness for C2 (amended) on the break-snap scenario inputs. -/
theorem c2_amended_witness :
    (rlFindRoute c2scnData (fun _ _ _ _ => ⟨.fin 1000, 5400⟩)
        (fun _ => ⟨(0, 0), ⟨.fin 0, 0⟩⟩) 1 (13/10) (519/5) 11 12 12 13).locations.head? =
      some (seedLocation (13/10) (519/5) 11) ∧
    ∀ l ∈ (rlFindRoute c2scnData (fun _ _ _ _ => ⟨.fin 1000, 5400⟩)
        (fun _ => ⟨(0, 0), ⟨.fin 0, 0⟩⟩) 1 (13/10) (519/5) 11 12 12 13).locations.drop 1,
      ¬ insideBreak 12 13 l :=
  c2_amended.1 c2scnData (fun _ _ _ _ => ⟨.fin 1000, 5400⟩)
    (fun _ => ⟨(0, 0), ⟨.fin 0, 0⟩⟩) 1 (13/10) (519/5) 11 12 12 13
    (fun _ _ _ _ => by norm_num) (fun _ => by norm_num)

/-- C4: the 12 PM edge case of `calculateTotalDrivingTime` is broken —
on a route produced by the RL dispatcher whose events read 11:00 AM and
12:30 PM, the code parses 12:30 PM as 00:30, wraps past midnight, and
reports 13.5 driving hours where the correctly parsed difference is
1.5 hours. -/
theorem c4_code_bug_eval :
    c4route.locations.map (fun l => l.time) =
      [⟨11, 0, false⟩, ⟨12, 30, true⟩] ∧
    c4route.totalDrivingTime = 27/2 ∧
    specDrivingTime c4route.locations = 3/2 ∧
    c4route.totalDrivingTime ≠ specDrivingTime c4route.locations := by
  decide!

/-- C6: `calculateReward` computes `demandFactor - (distance/1000)*0.3`
with the demand factor of the first record matching the state's hour
and the action's 2-decimal-rounded coordinates (`2.0 + min(|gap|, 3)`
for positive gap, `max(0.5, 1.0 - min(gap, 0.5))` otherwise, neutral
`1.0` when no record matches), and exactly `-10` when either
`locationMapping` lookup fails — the two failure modes are distinct. -/
theorem c6_reward_formula (data : List DataRow) (mapping : Mapping)
    (state : Int × Int × Int) (action : Int × Int) (dist : ℚ) :
    calculateReward data mapping state action dist =
      specReward data mapping state action dist := by
  unfold calculateReward specReward
  cases hc : mapping (state.1, state.2.1) with
  | none => simp
  | some cc =>
    cases hn : mapping action with
    | none => simp
    | some nc =>
      simp only [Option.isNone_some, or_self, Bool.false_eq_true, if_false,
        Option.getD_some]
      rw [← head?_filter_eq_find?]
      cases data.filter (fun row =>
          decide (row.hour = state.2.2) && matchCoords row nc.1 nc.2) with
      | nil => simp
      | cons r t => simp [specDemandFactor]

/-- C7 (amended): every Q-table write performed during training stores
`cur + 0.1*(reward + 0.9*maxNextQ − cur)` and changes no other entry,
where `cur` and each value entering `maxNextQ` default to `0.1` both
for never-visited pairs and for pairs whose stored value is exactly `0`
(the JavaScript `|| 0.1` falsy default), and `maxNextQ` is `0` when the
next state has no possible actions. -/
theorem c7_amended (q : QTable) (s : Int × Int × Int) (a : Int × Int)
    (reward : ℚ) (ns : Int × Int × Int) (nas : List (Int × Int)) :
    (qLearningUpdate q s a reward ns nas) s a =
      some (specQUpdateValue q s a reward ns nas) ∧
    ∀ s2 a2, ¬(s2 = s ∧ a2 = a) →
      (qLearningUpdate q s a reward ns nas) s2 a2 = q s2 a2 := by
  constructor
  · unfold qLearningUpdate QTable.set
    simp only [and_self, if_true, Option.some.injEq]
    unfold specQUpdateValue
    have hmap : nas.map (fun a2 => jsOr (q ns a2) 0.1) =
        nas.map (fun a2 => if q ns a2 = none ∨ q ns a2 = some 0 then 0.1
          else (q ns a2).getD 0.1) :=
      List.map_congr_left (fun a2 _ => jsOr_eq_read (q ns a2))
    rw [jsOr_eq_read, hmap]
    cases nas with
    | nil => simp
    | cons a0 rest =>
      simp only [List.map_cons]
      rw [List.foldl_eq_foldr]
  · intro s2 a2 h
    unfold qLearningUpdate QTable.set
    simp [h]

/-- C7 (counterexample): a two-step training run over `c7data` in which
the first update stores exactly `0` at `(c7S, c7A)`; the second update
then stores `0` again (the `||` default resurrects `0.1`), while the
claim's formula — current Q-value defaulted only when never visited —
prescribes `-99/1000` for the same step (same action, same reward
`-99/100`, same next state and actions). -/
theorem c7_counterexample :
    (trainSteps c7data c7osrm c7senv 0 1 c7start).qTable c7S c7A = some 0 ∧
    (trainSteps c7data c7osrm c7senv 0 2 c7start).qTable c7S c7A = some 0 ∧
    calculateReward c7data
        (getPossibleActions c7data
          (trainSteps c7data c7osrm c7senv 0 1 c7start).mapping c7S).2
        c7S c7A ((c7osrm (519/5) (13/10) (519/5) (13/10)).distance.toVal)
      = -99/100 ∧
    (getPossibleActions c7data
        (getPossibleActions c7data
          (trainSteps c7data c7osrm c7senv 0 1 c7start).mapping c7S).2 c7S).1
      = [c7A] ∧
    claimQUpdateValue (trainSteps c7data c7osrm c7senv 0 1 c7start).qTable
        c7S c7A (-99/100) c7S [c7A] = -99/1000 ∧
    (trainSteps c7data c7osrm c7senv 0 2 c7start).qTable c7S c7A ≠
      some (claimQUpdateValue (trainSteps c7data c7osrm c7senv 0 1 c7start).qTable
        c7S c7A (-99/100) c7S [c7A]) := by
  decide!

/-- C8: `routeDistTime` is total, and on every failing oracle outcome
(thrown request, missing `routes`, empty `routes`) it returns exactly
the haversine fallback — `distance = km * 1000`, `duration = km * 120`,
`geometry = null`; in particular two failing calls with identical
coordinates return the same estimate. -/
theorem c8_fallback :
    (∀ (outcome : OracleOutcome) (lon1 lat1 lon2 lat2 : ℝ),
      outcome.fails = true →
      routeDistTime outcome lon1 lat1 lon2 lat2 =
        { distance := .fin (calculateDistance lat1 lon1 lat2 lon2 * 1000)
          duration := calculateDistance lat1 lon1 lat2 lon2 * 120
          geometry := none }) ∧
    (∀ (o1 o2 : OracleOutcome) (lon1 lat1 lon2 lat2 : ℝ),
      o1.fails = true → o2.fails = true →
      routeDistTime o1 lon1 lat1 lon2 lat2 = routeDistTime o2 lon1 lat1 lon2 lat2) := by
  have hfb : ∀ (outcome : OracleOutcome) (lon1 lat1 lon2 lat2 : ℝ),
      outcome.fails = true →
      routeDistTime outcome lon1 lat1 lon2 lat2 =
        { distance := .fin (calculateDistance lat1 lon1 lat2 lon2 * 1000)
          duration := calculateDistance lat1 lon1 lat2 lon2 * 120
          geometry := none } := by
    intro outcome lon1 lat1 lon2 lat2 hf
    match outcome with
    | .error => rfl
    | .response none => rfl
    | .response (some []) => rfl
    | .response (some (r :: rs)) => simp [OracleOutcome.fails] at hf
  exact ⟨hfb, fun o1 o2 lon1 lat1 lon2 lat2 h1 h2 => by
    rw [hfb o1 lon1 lat1 lon2 lat2 h1, hfb o2 lon1 lat1 lon2 lat2 h2]⟩

/-- C1 (counterexample): an RL route of shape seed pickup (`tripId` 0),
drop-off (`tripId` 1), pickup (`tripId` 2).  The drop-off's `tripId` 1
matches no earlier pickup (the seed carries 0), and the final pickup
(`tripId` 2) has no paired drop-off either — both halves of the claimed
pairing invariant fail. -/
theorem c1_counterexample :
    c1route.locations.map (fun l => (l.type, l.tripId)) =
      [(LocType.pickup, 0), (LocType.dropoff, 1), (LocType.pickup, 2)] ∧
    ¬ claimTripPairing c1route.locations := by
  decide!

/-- C1 (amended): in every route produced by either dispatcher's
`findRoute` — for every dataset, estimator, oracle environment and fuel
— every drop-off event carries a positive `tripId`; a drop-off with
`tripId ≥ 2` matches exactly one earlier pickup event, while a drop-off
with `tripId` 1 matches none (its trip starts at the seed pickup, which
is labelled 0); and the pickup events are exactly the seed (`tripId` 0)
followed by `tripId`s `2, 3, …, k` in order, so the seed — and any
pickup whose trip records no drop-off, such as a final pickup — has no
paired drop-off. -/
theorem c1_amended (data : List DataRow) (osrm : Osrm) (env : ℕ → RLStep)
    (genv : ℕ → GreedyStep) (fuel : ℕ) (startLat startLon : ℚ)
    (startHour endHour bs be : Int) :
    (dropoffsPaired
        (rlFindRoute data osrm env fuel startLat startLon startHour endHour bs be).locations ∧
      ∃ k, 1 ≤ k ∧
        pickupIds (rlFindRoute data osrm env fuel startLat startLon startHour
          endHour bs be).locations = 0 :: intsAsc 2 k) ∧
    (dropoffsPaired
        (greedyFindRoute data osrm genv fuel startLat startLon startHour endHour bs be).locations ∧
      ∃ k, 1 ≤ k ∧
        pickupIds (greedyFindRoute data osrm genv fuel startLat startLon startHour
          endHour bs be).locations = 0 :: intsAsc 2 k) := by
  constructor
  · have h := c1inv_rlGo data osrm env bs be endHour fuel 0
      (rlInitState startLat startLon startHour)
      (c1inv_init startLat startLon startHour)
    exact ⟨h.2.2, _, h.1, h.2.1⟩
  · have h := c1inv_greedyGo data osrm genv bs be endHour fuel 0
      (greedyInitState startLat startLon startHour)
      (c1inv_init startLat startLon startHour)
    exact ⟨h.2.2, _, h.1, h.2.1⟩

/-- C2 (counterexample): with start hour 12 and break window 12–13 the
produced route consists of the seed event stamped 12:00, which lies
inside `[12:00, 13:00)`. -/
theorem c2_counterexample :
    c2route.locations = [seedLocation (13/10) (519/5) 12] ∧
    insideBreak 12 13 (seedLocation (13/10) (519/5) 12) := by
  decide!

/-- C5 (counterexample): on `c5data` the hour-5 record at the queried
position exists but carries the `[0]` sentinel; the code skips the hour
search and stays put with zero revenue, while the claim's search order
(trigger: "lacks usable suggested drop-off points") finds the usable
hour-6 suggestion and returns it with revenue `4.5 + 0.7·2 = 5.9`. -/
theorem c5_counterexample :
    getBestDropOffLocation c5data c5osrm 0 (13/10) (519/5) 5 =
      stayPut (13/10) (519/5) ∧
    bestDropoffClaim c5data c5osrm 0 (13/10) (519/5) 5 =
      ⟨27/20, 2077/20, 59/10, 2000, 300⟩ ∧
    getBestDropOffLocation c5data c5osrm 0 (13/10) (519/5) 5 ≠
      bestDropoffClaim c5data c5osrm 0 (13/10) (519/5) 5 := by
  decide!

/-- C5 (amended): the hour search of `getBestDropOffLocation` runs only
when no record at all exists at the current hour and rounded position —
a record that exists but lacks usable suggested points goes straight to
the positive-gap fallback; formally the function equals
`specBestDropoff`, whose search is forward through increasing hours to
the dataset maximum and then backward to the minimum exactly when the
current hour has no record.  And whenever the search selects usable
suggested points whose reachable candidate list is nonempty, the
returned drop-off is the first candidate attaining the maximum
`revenue = 4.5 + 0.70 * distanceKm` — ties broken by encounter
order. -/
theorem c5_amended :
    (∀ (data : List DataRow) (osrm : Osrm) (r lat lon : ℚ) (h : Int),
      getBestDropOffLocation data osrm r lat lon h =
        specBestDropoff data osrm r lat lon h) ∧
    (∀ (data : List DataRow) (osrm : Osrm) (r lat lon : ℚ) (h : Int)
        (pts : DropPoints) (c : DropResult) (rest : List DropResult),
      dropLocationsSearch data lat lon h = some pts →
      pts.usable = true →
      dropCandidates osrm lat lon pts.list = c :: rest →
      isFirstMaxRevenue (c :: rest)
        (getBestDropOffLocation data osrm r lat lon h)) := by
  refine ⟨c5_searchEq, ?_⟩
  intro data osrm r lat lon h pts c rest hsel hu hc
  unfold getBestDropOffLocation
  rw [hsel]
  simp only [unusableSel, hu, Bool.not_true, Bool.false_eq_true, if_false,
    Option.getD_some]
  rw [hc]
  simp only [List.foldl_cons, ite_self]
  exact foldl_firstMax rest c

/-- Witness for C5 (amended) on `c5data` at hour 6, where the current
hour's record carries a usable suggested point. -/
theorem c5_amended_witness :
    getBestDropOffLocation c5data c5osrm 0 (13/10) (519/5) 6 =
      specBestDropoff c5data c5osrm 0 (13/10) (519/5) 6 ∧
    isFirstMaxRevenue [⟨27/20, 2077/20, 59/10, 2000, 300⟩]
      (getBestDropOffLocation c5data c5osrm 0 (13/10) (519/5) 6) :=
  ⟨c5_amended.1 c5data c5osrm 0 (13/10) (519/5) 6,
   c5_amended.2 c5data c5osrm 0 (13/10) (519/5) 6
     (.pts [(27/20, 2077/20)]) ⟨27/20, 2077/20, 59/10, 2000, 300⟩ []
     (by decide!) (by decide!) (by decide!)⟩

/-- C9: the two dispatchers handle an unavailable pickup differently.
Q-learning: when the pickup-leg estimate is unreachable the pickup
phase signals termination with the state accumulated so far, and the
loop returns exactly that state (a valid partial route, not an error).
Greedy: a `null` `bestPickup` or an unreachable pickup-leg estimate
advances `currentTime` by one hour and signals `continue`, and the loop
then retries with the advanced state. -/
theorem c9_unreachable_policies :
    (∀ (breakStartHour breakEndHour endHour : Int) (step : RLStep)
        (sd : RLState × ℚ × ℚ),
      ¬ endHour ≤ sd.1.currentTime →
      step.pickupEst.distance.isInf = true →
      rlPickupPhase breakStartHour breakEndHour endHour step sd =
        ({ sd.1 with stoppedUnreachable := true }, false)) ∧
    (∀ (data : List DataRow) (osrm : Osrm) (env : ℕ → RLStep)
        (breakStartHour breakEndHour endHour : Int) (fuel i : ℕ) (s s1 : RLState),
      ¬ endHour ≤ s.currentTime →
      ¬ (breakStartHour ≤ s.currentTime ∧ s.currentTime < breakEndHour) →
      rlPickupPhase breakStartHour breakEndHour endHour (env i)
          (rlDropPhase data osrm breakStartHour breakEndHour s) = (s1, false) →
      rlGo data osrm env breakStartHour breakEndHour endHour (fuel + 1) i s = s1) ∧
    (∀ (data : List DataRow) (osrm : Osrm) (step : GreedyStep)
        (breakStartHour breakEndHour endHour : Int) (s1 : GreedyState),
      ¬ endHour ≤ s1.currentTime →
      getBestPickupLocation data osrm step.rPick s1.currentLat s1.currentLon
          s1.currentTime s1.chosenPickupsByHour = none →
      greedyPickupPhase data osrm step breakStartHour breakEndHour endHour s1 =
        ({ s1 with currentTime := s1.currentTime + 1 }, true)) ∧
    (∀ (data : List DataRow) (osrm : Osrm) (step : GreedyStep)
        (breakStartHour breakEndHour endHour : Int) (s1 : GreedyState)
        (loc : ℚ × ℚ) (ch : List (Int × ℚ × ℚ)),
      ¬ endHour ≤ s1.currentTime →
      getBestPickupLocation data osrm step.rPick s1.currentLat s1.currentLon
          s1.currentTime s1.chosenPickupsByHour = some (loc, ch) →
      step.pickupEst.distance.isInf = true →
      greedyPickupPhase data osrm step breakStartHour breakEndHour endHour s1 =
        ({ s1 with
            currentTime := s1.currentTime + 1
            chosenPickupsByHour := ch
            unreachableSkips := s1.unreachableSkips + 1 }, true)) ∧
    (∀ (data : List DataRow) (osrm : Osrm) (genv : ℕ → GreedyStep)
        (breakStartHour breakEndHour endHour : Int) (fuel i : ℕ)
        (s s1 : GreedyState),
      ¬ endHour ≤ s.currentTime →
      ¬ (breakStartHour ≤ s.currentTime ∧ s.currentTime < breakEndHour) →
      greedyPickupPhase data osrm (genv i) breakStartHour breakEndHour endHour
          (greedyDropPhase data osrm (genv i).rDrop breakStartHour breakEndHour s)
        = (s1, true) →
      greedyGo data osrm genv breakStartHour breakEndHour endHour (fuel + 1) i s =
        greedyGo data osrm genv breakStartHour breakEndHour endHour fuel (i + 1) s1) := by
  refine ⟨?_, ?_, ?_, ?_, ?_⟩
  · intro bs be endHour step sd h1 h2
    unfold rlPickupPhase
    rw [if_neg h1]
    simp only [h2, if_true]
  · intro data osrm env bs be endHour fuel i s s1 h1 h2 h3
    unfold rlGo
    rw [if_neg h1, if_neg h2, h3]
  · intro data osrm step bs be endHour s1 h1 h2
    unfold greedyPickupPhase
    rw [if_neg h1, h2]
  · intro data osrm step bs be endHour s1 loc ch h1 h2 h3
    unfold greedyPickupPhase
    rw [if_neg h1, h2]
    simp only [h3, if_true]
  · intro data osrm genv bs be endHour fuel i s s1 h1 h2 h3
    conv_lhs => rw [greedyGo]
    rw [if_neg h1, if_neg h2, h3]

/-- Witness for C9: the RL hard stop and the greedy skip-hour retry at
concrete inputs. -/
theorem c9_unreachable_policies_witness :
    (rlPickupPhase 12 13 9 ⟨(5, 5), ⟨.inf, 0⟩⟩ (rlInitState 0 0 8, 0, 0) =
      ({ rlInitState 0 0 8 with stoppedUnreachable := true }, false)) ∧
    (greedyPickupPhase [] (fun _ _ _ _ => ⟨.inf, 0⟩) ⟨0, 0, ⟨.inf, 0⟩⟩ 12 13 9
        (greedyInitState 0 0 8) =
      ({ greedyInitState 0 0 8 with currentTime := 9 }, true)) :=
  ⟨c9_unreachable_policies.1 12 13 9 ⟨(5, 5), ⟨.inf, 0⟩⟩ (rlInitState 0 0 8, 0, 0)
      (by decide) rfl,
    c9_unreachable_policies.2.2.1 [] (fun _ _ _ _ => ⟨.inf, 0⟩) ⟨0, 0, ⟨.inf, 0⟩⟩
      12 13 9 (greedyInitState 0 0 8) (by decide) rfl⟩

/-- C10: `routeDistTime` never returns an infinite distance or
duration for finite inputs (a successful response carries JSON-parsed
finite numbers and the haversine fallback is a real number), so every
`distance === Infinity` guard downstream is an unreachable branch under
the production estimator: the Q-learning hard-stop flag and the greedy
skip-hour counter never move when every pickup-leg estimate is finite,
and the reachability filters of the drop-off/pickup candidate
evaluations discard nothing when the estimator is everywhere finite —
those branches can only execute with a substituted estimator. -/
theorem c10_infinity_guards :
    (∀ (outcome : OracleOutcome) (lon1 lat1 lon2 lat2 : ℝ),
      (routeDistTime outcome lon1 lat1 lon2 lat2).distance.isInf = false) ∧
    (∀ (data : List DataRow) (osrm : Osrm) (env : ℕ → RLStep)
        (bs be endHour : Int) (fuel i : ℕ) (s : RLState),
      (∀ j, (env j).pickupEst.distance.isInf = false) →
      (rlGo data osrm env bs be endHour fuel i s).stoppedUnreachable =
        s.stoppedUnreachable) ∧
    (∀ (data : List DataRow) (osrm : Osrm) (genv : ℕ → GreedyStep)
        (bs be endHour : Int) (fuel i : ℕ) (s : GreedyState),
      (∀ j, (genv j).pickupEst.distance.isInf = false) →
      (greedyGo data osrm genv bs be endHour fuel i s).unreachableSkips =
        s.unreachableSkips) ∧
    (∀ (osrm : Osrm) (lat lon : ℚ) (pts : List (ℚ × ℚ)),
      (∀ a b c d : ℚ, (osrm a b c d).distance.isInf = false) →
      (dropCandidates osrm lat lon pts).length = pts.length) ∧
    (∀ (osrm : Osrm) (dropLat dropLon : ℚ) (rows : List DataRow),
      (∀ a b c d : ℚ, (osrm a b c d).distance.isInf = false) →
      ((rows.map (fun row => (row, osrm dropLon dropLat row.LONGITUDE row.LATITUDE))).filter
          (fun p => decide (p.1.predictions > 0) && !p.2.distance.isInf) =
        (rows.map (fun row => (row, osrm dropLon dropLat row.LONGITUDE row.LATITUDE))).filter
          (fun p => decide (p.1.predictions > 0)) ∧
        (rows.map (fun row => (row, osrm dropLon dropLat row.LONGITUDE row.LATITUDE))).filter
          (fun p => !p.2.distance.isInf) =
        rows.map (fun row => (row, osrm dropLon dropLat row.LONGITUDE row.LATITUDE)))) := by
  refine ⟨?_, ?_, ?_, ?_, ?_⟩
  · intro outcome lon1 lat1 lon2 lat2
    rcases outcome with _ | hr
    · rfl
    · rcases hr with _ | hl
      · rfl
      · rcases hl with _ | _
        · rfl
        · rfl
  · intro data osrm env bs be endHour fuel i s henv
    exact rlGo_flag data osrm env bs be endHour henv fuel i s
  · intro data osrm genv bs be endHour fuel i s henv
    exact greedyGo_skips data osrm genv bs be endHour henv fuel i s
  · intro osrm lat lon pts hfin
    induction pts with
    | nil => rfl
    | cons p t ih =>
      unfold dropCandidates at ih ⊢
      rw [List.filterMap_cons]
      dsimp only
      rw [hfin]
      simp only [Bool.false_eq_true, if_false, List.length_cons, ih]
  · intro osrm dropLat dropLon rows hfin
    constructor
    · induction rows with
      | nil => rfl
      | cons row t ih =>
        simp only [List.map_cons, List.filter_cons, hfin, Bool.not_false,
          Bool.and_true, ih]
    · induction rows with
      | nil => rfl
      | cons row t ih =>
        simp only [List.map_cons, List.filter_cons, hfin, Bool.not_false, ih,
          if_true]

/-- Witness for C10 at concrete finite estimators and environments. -/
theorem c10_infinity_guards_witness :
    (rlGo [] (fun _ _ _ _ => ⟨.fin 1, 1⟩) (fun _ => ⟨(0, 0), ⟨.fin 1, 1⟩⟩)
        12 13 9 1 0 (rlInitState 0 0 8)).stoppedUnreachable =
      (rlInitState 0 0 8).stoppedUnreachable ∧
    (greedyGo [] (fun _ _ _ _ => ⟨.fin 1, 1⟩) (fun _ => ⟨0, 0, ⟨.fin 1, 1⟩⟩)
        12 13 9 1 0 (greedyInitState 0 0 8)).unreachableSkips =
      (greedyInitState 0 0 8).unreachableSkips ∧
    (dropCandidates (fun _ _ _ _ => ⟨.fin 1, 1⟩) 0 0 [(1, 2), (3, 4)]).length = 2 :=
  ⟨c10_infinity_guards.2.1 [] (fun _ _ _ _ => ⟨.fin 1, 1⟩)
      (fun _ => ⟨(0, 0), ⟨.fin 1, 1⟩⟩) 12 13 9 1 0 (rlInitState 0 0 8) (fun _ => rfl),
    c10_infinity_guards.2.2.1 [] (fun _ _ _ _ => ⟨.fin 1, 1⟩)
      (fun _ => ⟨0, 0, ⟨.fin 1, 1⟩⟩) 12 13 9 1 0 (greedyInitState 0 0 8) (fun _ => rfl),
    c10_infinity_guards.2.2.2.1 (fun _ _ _ _ => ⟨.fin 1, 1⟩) 0 0 [(1, 2), (3, 4)]
      (fun _ _ _ _ => rfl)⟩

/-- Witness for C8 at a concrete failing outcome and coordinates. -/
theorem c8_fallback_witness :
    OracleOutcome.fails .error = true ∧
    routeDistTime .error 0 0 0 0 =
      { distance := .fin (calculateDistance 0 0 0 0 * 1000)
        duration := calculateDistance 0 0 0 0 * 120
        geometry := none } :=
  ⟨rfl, c8_fallback.1 .error 0 0 0 0 rfl⟩

end Taxi
